import Mathlib

/-!
# Multi-user spreadsheet server: the session state machine

A shallow embedding of `spreadsheet_session` from `src/server.cc`.

* A `std::string` is a Lean `String`; a C++ `char` is a Lean `Char`, so
  `std::string::length` is `String.length` and `operator<` on strings is the
  lexicographic order of the character lists.
* `std::map<std::string, std::string>` is a list of entries with strictly
  ascending keys (`string_map`); iteration visits the entries in key order.
* `std::set<tcp_connection::pointer>` is a strictly ascending list of
  connection handles (`connection_set`).
* `std::stack` is a list whose head is the top.
* `int` counters are unbounded integers.
* Socket writes and the XML file write are recorded as a list of `Effect`s, in
  the order the calls are made.  A message is kept as a structured `Message`;
  `Message.text` gives the bytes put on the wire.
* Applying `erase` to the `end()` iterator is undefined behaviour: a handler
  that does so has no result (`none`).
* A received buffer is the string of its characters; `getline`, `substr` and
  `atoi` are modelled on it, and an exception thrown in a handler ends the
  handler without a result (`Failure`).
* The server keeps its catalog `files` and its directory `sessions`; the threads
  it starts for `create_thread` run as events of their own, after the handler
  that started them.
-/

namespace Spreadsheet

/-! ## `std::map<std::string, std::string>` -/

/-- The order `std::map` keeps its `std::string` keys in. -/
abbrev key_lt (a b : String) : Prop := a.data < b.data

/-- Strictly ascending keys, the representation invariant of a `std::map`. -/
def keys_ascending (l : List (String × String)) : Prop :=
  l.Pairwise (fun a b => key_lt a.1 b.1)

/-- Lookup of a key among the entries (`map::find`, `none` for `end()`). -/
def entries_find (k : String) : List (String × String) → Option String
  | [] => none
  | (k', v') :: t => if k' = k then some v' else entries_find k t

/-- Insertion that keeps an existing entry untouched (`map::insert`). -/
def entries_insert (k v : String) : List (String × String) → List (String × String)
  | [] => [(k, v)]
  | (k', v') :: t =>
    if key_lt k k' then (k, v) :: (k', v') :: t
    else if k = k' then (k', v') :: t
    else (k', v') :: entries_insert k v t

/-- Assignment through `operator[]`: replace the value, or insert the entry. -/
def entries_assign (k v : String) : List (String × String) → List (String × String)
  | [] => [(k, v)]
  | (k', v') :: t =>
    if key_lt k k' then (k, v) :: (k', v') :: t
    else if k = k' then (k', v) :: t
    else (k', v') :: entries_assign k v t

/-- Removal of the entry of a key (`map::erase` at the position `find` gave). -/
def entries_erase (k : String) : List (String × String) → List (String × String)
  | [] => []
  | (k', v') :: t => if k' = k then t else (k', v') :: entries_erase k t

theorem key_lt_trans {a b c : String} (h1 : key_lt a b) (h2 : key_lt b c) : key_lt a c :=
  lt_trans h1 h2

theorem key_lt_irrefl (a : String) : ¬ key_lt a a :=
  lt_irrefl a.data

theorem key_lt_of_not_lt {a b : String} (h1 : ¬ key_lt a b) (h2 : a ≠ b) : key_lt b a := by
  have hne : a.data ≠ b.data := fun h => h2 (String.ext h)
  exact lt_of_le_of_ne (not_lt.mp h1) (Ne.symm hne)

theorem mem_entries_insert {k v : String} {a : String × String} :
    ∀ {l : List (String × String)}, a ∈ entries_insert k v l → a.1 = k ∨ a ∈ l
  | [], h => by
    simp only [entries_insert, List.mem_singleton] at h
    exact Or.inl (by rw [h])
  | (k', v') :: t, h => by
    unfold entries_insert at h
    split_ifs at h with h1 h2
    · rcases List.mem_cons.mp h with rfl | h
      · exact Or.inl rfl
      · exact Or.inr h
    · exact Or.inr h
    · rcases List.mem_cons.mp h with rfl | h
      · exact Or.inr (List.mem_cons_self _ _)
      · rcases mem_entries_insert h with h | h
        · exact Or.inl h
        · exact Or.inr (List.mem_cons_of_mem _ h)

theorem mem_entries_assign {k v : String} {a : String × String} :
    ∀ {l : List (String × String)}, a ∈ entries_assign k v l → a.1 = k ∨ a ∈ l
  | [], h => by
    simp only [entries_assign, List.mem_singleton] at h
    exact Or.inl (by rw [h])
  | (k', v') :: t, h => by
    unfold entries_assign at h
    split_ifs at h with h1 h2
    · rcases List.mem_cons.mp h with rfl | h
      · exact Or.inl rfl
      · exact Or.inr h
    · rcases List.mem_cons.mp h with rfl | h
      · exact Or.inl h2.symm
      · exact Or.inr (List.mem_cons_of_mem _ h)
    · rcases List.mem_cons.mp h with rfl | h
      · exact Or.inr (List.mem_cons_self _ _)
      · rcases mem_entries_assign h with h | h
        · exact Or.inl h
        · exact Or.inr (List.mem_cons_of_mem _ h)

theorem keys_ascending_insert (k v : String) :
    ∀ {l : List (String × String)}, keys_ascending l → keys_ascending (entries_insert k v l)
  | [], _ => by simp [entries_insert, keys_ascending]
  | (k', v') :: t, h => by
    have hc := List.pairwise_cons.mp h
    unfold entries_insert
    split_ifs with h1 h2
    · refine List.pairwise_cons.mpr ⟨?_, h⟩
      intro a ha
      rcases List.mem_cons.mp ha with rfl | ha
      · exact h1
      · exact key_lt_trans h1 (hc.1 a ha)
    · exact h
    · refine List.pairwise_cons.mpr ⟨?_, keys_ascending_insert k v hc.2⟩
      intro a ha
      rcases mem_entries_insert ha with ha | ha
      · show key_lt k' a.1
        rw [ha]
        exact key_lt_of_not_lt h1 h2
      · exact hc.1 a ha

theorem keys_ascending_assign (k v : String) :
    ∀ {l : List (String × String)}, keys_ascending l → keys_ascending (entries_assign k v l)
  | [], _ => by simp [entries_assign, keys_ascending]
  | (k', v') :: t, h => by
    have hc := List.pairwise_cons.mp h
    unfold entries_assign
    split_ifs with h1 h2
    · refine List.pairwise_cons.mpr ⟨?_, h⟩
      intro a ha
      rcases List.mem_cons.mp ha with rfl | ha
      · exact h1
      · exact key_lt_trans h1 (hc.1 a ha)
    · exact List.pairwise_cons.mpr ⟨hc.1, hc.2⟩
    · refine List.pairwise_cons.mpr ⟨?_, keys_ascending_assign k v hc.2⟩
      intro a ha
      rcases mem_entries_assign ha with ha | ha
      · show key_lt k' a.1
        rw [ha]
        exact key_lt_of_not_lt h1 h2
      · exact hc.1 a ha

theorem entries_erase_sublist (k : String) :
    ∀ l : List (String × String), (entries_erase k l).Sublist l
  | [] => List.Sublist.refl _
  | (k', v') :: t => by
    unfold entries_erase
    split_ifs with h
    · exact List.sublist_cons_self _ _
    · exact (entries_erase_sublist k t).cons₂ _

theorem keys_ascending_erase (k : String) {l : List (String × String)}
    (h : keys_ascending l) : keys_ascending (entries_erase k l) :=
  List.Pairwise.sublist (entries_erase_sublist k l) h

/-- The cell store type: a `std::map<std::string, std::string>`. -/
structure string_map where
  entries : List (String × String)
  ascending : keys_ascending entries

instance : DecidableEq string_map := fun a b =>
  match a, b with
  | ⟨ea, _⟩, ⟨eb, _⟩ =>
    if h : ea = eb then isTrue (by subst h; rfl)
    else isFalse (fun h2 => h (congrArg string_map.entries h2))

namespace string_map

/-- A default-constructed map. -/
def empty : string_map := ⟨[], List.Pairwise.nil⟩

/-- Lookup `find(k)`, with `none` for `end()`. -/
def find (m : string_map) (k : String) : Option String := entries_find k m.entries

/-- The call `insert(pair(k, v))`. -/
def insert (m : string_map) (k v : String) : string_map :=
  ⟨entries_insert k v m.entries, keys_ascending_insert k v m.ascending⟩

/-- The statement `m[k] = v`. -/
def assign (m : string_map) (k v : String) : string_map :=
  ⟨entries_assign k v m.entries, keys_ascending_assign k v m.ascending⟩

/-- The call `erase(find(k))` for a key that is present. -/
def erase (m : string_map) (k : String) : string_map :=
  ⟨entries_erase k m.entries, keys_ascending_erase k m.ascending⟩

/-- Content of a cell, an absent cell being read as empty content. -/
def content (m : string_map) (k : String) : String := (m.find k).getD ""

end string_map

/-! ## `std::set<tcp_connection::pointer>` -/

/-- A `tcp_connection::pointer`: an opaque handle, ordered like an address. -/
abbrev tcp_connection := Nat

/-- Insertion into the ascending list; a handle already present is kept once. -/
def handles_insert (c : tcp_connection) : List tcp_connection → List tcp_connection
  | [] => [c]
  | d :: t =>
    if c < d then c :: d :: t
    else if c = d then d :: t
    else d :: handles_insert c t

/-- Removal of a handle; nothing happens when it is not there. -/
def handles_erase (c : tcp_connection) : List tcp_connection → List tcp_connection
  | [] => []
  | d :: t => if d = c then t else d :: handles_erase c t

theorem mem_handles_insert {c a : tcp_connection} :
    ∀ {l : List tcp_connection}, a ∈ handles_insert c l ↔ a = c ∨ a ∈ l
  | [] => by simp [handles_insert]
  | d :: t => by
    unfold handles_insert
    split_ifs with h1 h2
    · simp
    · subst h2
      simp
    · rw [List.mem_cons, mem_handles_insert, List.mem_cons]
      tauto

theorem handles_insert_ascending (c : tcp_connection) :
    ∀ {l : List tcp_connection}, l.Pairwise (· < ·) → (handles_insert c l).Pairwise (· < ·)
  | [], _ => by simp [handles_insert]
  | d :: t, h => by
    have hc := List.pairwise_cons.mp h
    unfold handles_insert
    split_ifs with h1 h2
    · refine List.pairwise_cons.mpr ⟨?_, h⟩
      intro a ha
      rcases List.mem_cons.mp ha with rfl | ha
      · exact h1
      · exact lt_trans h1 (hc.1 a ha)
    · exact h
    · refine List.pairwise_cons.mpr ⟨?_, handles_insert_ascending c hc.2⟩
      intro a ha
      rcases mem_handles_insert.mp ha with rfl | ha
      · exact Nat.lt_of_le_of_ne (Nat.le_of_not_lt h1) (fun h => h2 h.symm)
      · exact hc.1 a ha

theorem handles_erase_sublist (c : tcp_connection) :
    ∀ l : List tcp_connection, (handles_erase c l).Sublist l
  | [] => List.Sublist.refl _
  | d :: t => by
    unfold handles_erase
    split_ifs with h
    · exact List.sublist_cons_self _ _
    · exact (handles_erase_sublist c t).cons₂ _

/-- The subscriber set type: a `std::set<tcp_connection::pointer>`. -/
structure connection_set where
  elems : List tcp_connection
  ascending : elems.Pairwise (· < ·)

instance : DecidableEq connection_set := fun a b =>
  match a, b with
  | ⟨ea, _⟩, ⟨eb, _⟩ =>
    if h : ea = eb then isTrue (by subst h; rfl)
    else isFalse (fun h2 => h (congrArg connection_set.elems h2))

namespace connection_set

/-- A default-constructed set. -/
def empty : connection_set := ⟨[], List.Pairwise.nil⟩

/-- The call `insert(c)`. -/
def insert (u : connection_set) (c : tcp_connection) : connection_set :=
  ⟨handles_insert c u.elems, handles_insert_ascending c u.ascending⟩

/-- The call `erase(c)` by key. -/
def erase (u : connection_set) (c : tcp_connection) : connection_set :=
  ⟨handles_erase c u.elems, List.Pairwise.sublist (handles_erase_sublist c u.elems) u.ascending⟩

end connection_set

/-! ## Messages, documents and effects -/

/-- One `cell` node of the property tree: its `name` and `contents` children.
A child that is missing reads as the empty string, as `get(key, "")` does. -/
structure cell_node where
  name : String
  contents : String
deriving DecidableEq

/-- The property tree under `spreadsheet`: the sequence of its `cell` nodes. -/
abbrev Document := List cell_node

/-- The messages a session puts on the wire, with their fields. -/
inductive Message where
  | change_ok (name : String) (version : Int)
  | change_wait (name : String) (version : Int)
  | undo_ok (name : String) (version : Int) (cell : String) (length : String) (content : String)
  | undo_wait (name : String) (version : Int)
  | undo_end (name : String) (version : Int)
  | save_ok (name : String)
  | update (name : String) (version : Int) (cell : String) (length : String) (content : String)
  | join_ok (name : String) (version : Int) (xmldata : Document)
  | error
deriving DecidableEq

/-- The text of a message as the session assembles it.  The parameter
`write_xml` is the serialisation of a property tree to XML text. -/
def Message.text (write_xml : Document → String) : Message → String
  | .change_ok name version =>
    "CHANGE OK\nName:" ++ (name ++ "\nVersion:") ++ (toString version ++ "\n")
  | .change_wait name version =>
    "CHANGE WAIT\nName:" ++ (name ++ "\nVersion:") ++ (toString version ++ "\n")
  | .undo_ok name version cell length content =>
    "UNDO OK\nName:" ++ (name ++ "\nVersion:") ++ (toString version ++ "\nCell:")
      ++ (cell ++ "\nLength:") ++ (length ++ "\n") ++ (content ++ "\n")
  | .undo_wait name version =>
    "UNDO WAIT\nName:" ++ (name ++ "\nVersion:") ++ (toString version ++ "\n")
  | .undo_end name version =>
    "UNDO END\nName:" ++ (name ++ "\nVersion:") ++ (toString version ++ "\n")
  | .save_ok name => "SAVE OK\nName:" ++ (name ++ "\n")
  | .update name version cell length content =>
    "UPDATE\nName:" ++ (name ++ "\nVersion:") ++ (toString version ++ "\nCell:")
      ++ (cell ++ "\nLength:") ++ (length ++ "\n") ++ (content ++ "\n")
  | .join_ok name version xmldata =>
    "JOIN OK\nName:" ++ (name ++ "\nVersion:") ++ (toString version ++ "\nLength:")
      ++ (toString (write_xml xmldata).length ++ "\n") ++ (write_xml xmldata ++ "\n")
  | .error => "ERROR\n"

/-- What a handler does to the outside world. -/
inductive Effect where
  | send (connection : tcp_connection) (message : Message)
  | write_xml (xml_name : String) (pt : Document)
deriving DecidableEq

/-- The first line of a received buffer together with the fields the handler
reads from the lines after it. -/
inductive Command where
  | change (file_name : String) (version : Int) (cellname : String) (length : String)
      (content : String)
  | undo (file_name : String) (version : Int)
  | save (file_name : String)
  | leave (file_name : String)
  | unknown
deriving DecidableEq

/-! ## The session -/

/-- The member variables of `spreadsheet_session`. -/
structure spreadsheet_session where
  connected_users : connection_set
  used_cells : string_map
  changes : List (String × String)
  filename : String
  xml_name : String
  ss_version : Int
  user_count : Int
deriving DecidableEq

namespace spreadsheet_session

/-- The property tree that `save_ss` and `get_current_state` build from
`used_cells`: a bare `spreadsheet` node for an empty map, otherwise one `cell`
node per entry, in key order. -/
def property_tree (s : spreadsheet_session) : Document :=
  match s.used_cells.entries with
  | [] => []
  | e :: t => (e :: t).map (fun it => ⟨it.1, it.2⟩)

/-- Translation of `save_ss`: write the whole map, then empty the stack. -/
def save_ss (s : spreadsheet_session) : spreadsheet_session × List Effect :=
  ({ s with changes := [] }, [Effect.write_xml s.xml_name s.property_tree])

/-- Translation of `open_file`, applied to the tree `read_xml` produced. -/
def open_file (s : spreadsheet_session) (pt : Document) : spreadsheet_session :=
  { s with
    used_cells := pt.foldl
      (fun m child =>
        if child.name ≠ "" ∧ child.contents ≠ "" then m.insert child.name child.contents
        else m)
      s.used_cells }

/-- Translation of `send_update`: an UPDATE for every subscriber but `connection`. -/
def send_update (s : spreadsheet_session) (connection : tcp_connection)
    (cell_name length cell_data : String) : List Effect :=
  (s.connected_users.elems.filter (fun it => it ≠ connection)).map
    (fun it => Effect.send it (Message.update s.filename s.ss_version cell_name length cell_data))

/-- Translation of `send_XML`. -/
def send_XML (s : spreadsheet_session) (connection : tcp_connection) : List Effect :=
  [Effect.send connection (Message.join_ok s.filename s.ss_version s.property_tree)]

/-- Translation of `add_user`. -/
def add_user (s : spreadsheet_session) (connection : tcp_connection) :
    spreadsheet_session × List Effect :=
  let s1 := { s with
    connected_users := s.connected_users.insert connection
    user_count := s.user_count + 1 }
  (s1, s1.send_XML connection)

/-- The member variables as the constructor initialises them, before it opens
the file: empty containers and both counters zero. -/
def blank (file xml_file : String) : spreadsheet_session :=
  { connected_users := connection_set.empty
    used_cells := string_map.empty
    changes := []
    filename := file
    xml_name := xml_file
    ss_version := 0
    user_count := 0 }

/-- Translation of the constructor; `pt` is the content of the file `xml_file`. -/
def create (file xml_file : String) (pt : Document) (user : tcp_connection) :
    spreadsheet_session × List Effect :=
  let s1 := (blank file xml_file).open_file pt
  let (s2, e2) := s1.save_ss
  let (s3, e3) := s2.add_user user
  (s3, e2 ++ e3)

/-- Translation of the LEAVE branch of `message_received` after the name has
been read: erase the connection, decrement the counter, and save when the
counter reached zero with changes on the stack.  The call `m_sig()` that would
tell the server to delete the session is commented out in the source, so
nothing stands for it. -/
def remove_user (s : spreadsheet_session) (connection : tcp_connection) :
    spreadsheet_session × List Effect :=
  let s1 := { s with
    connected_users := s.connected_users.erase connection
    user_count := s.user_count - 1 }
  if s1.user_count = 0 then
    if s1.changes.length ≠ 0 then s1.save_ss else (s1, [])
  else (s1, [])

/-- Translation of `message_received` on a buffer received without error. -/
def message_received (s : spreadsheet_session) (connection : tcp_connection) :
    Command → Option (spreadsheet_session × List Effect)
  | .change file_name version cellname length content =>
    if version = s.ss_version then
      let it := s.used_cells.find cellname
      let previousContents : String :=
        match it with
        | some v => v
        | none => ""
      let cells : string_map :=
        match it with
        | some _ => s.used_cells.assign cellname content
        | none => s.used_cells.insert cellname content
      let s1 := { s with
        used_cells := cells
        changes := (cellname, previousContents) :: s.changes
        ss_version := s.ss_version + 1 }
      some (s1, s1.send_update connection cellname length content
        ++ [Effect.send connection (Message.change_ok file_name s1.ss_version)])
    else
      some (s, [Effect.send connection (Message.change_wait file_name s.ss_version)])
  | .undo file_name version =>
    if version ≠ s.ss_version then
      some (s, [Effect.send connection (Message.undo_wait file_name s.ss_version)])
    else
      match s.changes with
      | [] => some (s, [Effect.send connection (Message.undo_end file_name s.ss_version)])
      | (cellname, contents) :: rest =>
        let reverted : Option string_map :=
          if contents = "" then
            match s.used_cells.find cellname with
            | some _ => some (s.used_cells.erase cellname)
            | none => none
          else some (s.used_cells.assign cellname contents)
        match reverted with
        | none => none
        | some cells =>
          let s1 := { s with
            used_cells := cells
            changes := rest
            ss_version := s.ss_version + 1 }
          some (s1, s1.send_update connection cellname (toString contents.length) contents
            ++ [Effect.send connection
                  (Message.undo_ok file_name s1.ss_version cellname
                    (toString contents.length) contents)])
  | .save file_name =>
    let (s1, e1) := s.save_ss
    some (s1, e1 ++ [Effect.send connection (Message.save_ok file_name)])
  | .leave _ => some (s.remove_user connection)
  | .unknown => some (s, [Effect.send connection Message.error])

/-- Translation of the `error_code` branch of `message_received`; here too the
call `m_sig()` is commented out. -/
def receive_error (s : spreadsheet_session) (connection : tcp_connection) :
    spreadsheet_session × List Effect :=
  let s1 := { s with
    connected_users := s.connected_users.erase connection
    user_count := s.user_count - 1 }
  let temp_user_count := s1.user_count
  let temp_change_sizes := s1.changes.length
  if temp_user_count = 0 then
    if temp_change_sizes ≠ 0 then s1.save_ss else (s1, [])
  else (s1, [])

/-- Translation of `send_callback` when the write failed; the call `m_sig()` is
commented out as well. -/
def send_callback_error (s : spreadsheet_session) (connection : tcp_connection) :
    spreadsheet_session × List Effect :=
  let s1 := { s with
    connected_users := s.connected_users.erase connection
    user_count := s.user_count - 1 }
  let temp_user_count := s1.user_count
  let temp_change_sizes := s1.changes.length
  if temp_user_count = 0 then
    if temp_change_sizes ≠ 0 then s1.save_ss else (s1, [])
  else (s1, [])

end spreadsheet_session

/-! ## Executions -/

/-- An OK reply (CHANGE OK or UNDO OK) sent to `connection`. -/
def is_ok_reply (connection : tcp_connection) : Effect → Bool
  | .send c (.change_ok _ _) => decide (c = connection)
  | .send c (.undo_ok _ _ _ _ _) => decide (c = connection)
  | _ => false

/-- An UPDATE sent to anybody. -/
def is_update : Effect → Bool
  | .send _ (.update _ _ _ _ _) => true
  | _ => false

/-- A write of the XML file. -/
def is_write : Effect → Bool
  | .write_xml _ _ => true
  | _ => false

/-- One handled command: who sent what, the state reached, the effects, and
the cell store as it was when the file was last written. -/
structure Step where
  connection : tcp_connection
  command : Command
  state : spreadsheet_session
  effects : List Effect
  saved : string_map

/-- The command was answered with CHANGE OK or UNDO OK. -/
def Step.answered_ok (r : Step) : Bool := r.effects.any (is_ok_reply r.connection)

/-- The steps of handling a sequence of commands one after the other, up to the
first command whose handling is undefined.  `saved` is the cell store at the
last write of the file. -/
def trace (saved : string_map) (s : spreadsheet_session) :
    List (tcp_connection × Command) → List Step
  | [] => []
  | (c, cmd) :: rest =>
    match s.message_received c cmd with
    | none => []
    | some (s1, e1) =>
      let saved1 := if e1.any is_write then s1.used_cells else saved
      ⟨c, cmd, s1, e1, saved1⟩ :: trace saved1 s1 rest

/-- The state after the last step of a trace that started in `s`. -/
def final_state (s : spreadsheet_session) : List Step → spreadsheet_session
  | [] => s
  | r :: t => final_state r.state t

/-- Reverting one undo entry in a cell store, in the words of the specification:
remove the cell when the prior content is empty, otherwise set the cell to the
prior content. -/
def revert (m : string_map) (e : String × String) : string_map :=
  if e.2 = "" then m.erase e.1 else m.assign e.1 e.2

/-- Popping every entry of the undo log, top first, reverting each. -/
def replay (changes : List (String × String)) (m : string_map) : string_map :=
  changes.foldl revert m

/-- The undo log of `s` reverts the cell store of `s` to the content of `saved`,
cell by cell, an absent cell counting as empty. -/
def replays_to (saved : string_map) (s : spreadsheet_session) : Prop :=
  ∀ k, (replay s.changes s.used_cells).content k = saved.content k

/-! ## Sample sessions -/

/-- The session of the document "budget" right after connection 1 opened it on
an empty file and connection 2 joined: version 0, no cells, no changes. -/
def budget : spreadsheet_session :=
  ((spreadsheet_session.create "budget" "xml1.xml" [] 1).1.add_user 2).1

/-- Three accepted edits, made by connection 1. -/
def three_edits : List (tcp_connection × Command) :=
  [(1, .change "budget" 0 "A1" "1" "5"),
   (1, .change "budget" 1 "B2" "2" "42"),
   (1, .change "budget" 2 "A1" "1" "6")]

/-- The session `budget` after `three_edits`: version 3. -/
def budget_v3 : spreadsheet_session :=
  final_state budget (trace budget.used_cells budget three_edits)

/-- Two edits that set A1 to the empty content, then one undo. -/
def cleared_twice : List (tcp_connection × Command) :=
  [(1, .change "budget" 0 "A1" "0" ""),
   (1, .change "budget" 1 "A1" "0" ""),
   (1, .undo "budget" 2)]

/-- The session `budget` after `cleared_twice`. -/
def budget_cleared : spreadsheet_session :=
  final_state budget (trace budget.used_cells budget cleared_twice)

/-- The session `budget` after an edit that sets A1 to the empty content. -/
def budget_blanked : spreadsheet_session :=
  final_state budget (trace budget.used_cells budget [(1, .change "budget" 0 "A1" "0" "")])

/-- Edits, undos, a stale edit, a save and an edit after the save. -/
def edits_and_save : List (tcp_connection × Command) :=
  [(1, .change "budget" 0 "A1" "1" "5"),
   (2, .change "budget" 1 "A1" "0" ""),
   (2, .change "budget" 0 "B2" "1" "9"),
   (1, .undo "budget" 2),
   (1, .save "budget"),
   (2, .change "budget" 3 "B2" "2" "42"),
   (2, .undo "budget" 4)]

/-! ## Reading a received buffer -/

/-- How a handler can end without returning: `substr` throws `std::out_of_range`,
`read_xml` throws, or the behaviour is undefined (`erase` at `end()`).  An
exception is caught nowhere in the handlers. -/
inductive Failure where
  | out_of_range
  | xml_parser_error
  | undefined_behaviour
deriving DecidableEq

instance {ε α : Type} [DecidableEq ε] [DecidableEq α] : DecidableEq (Except ε α) := fun a b =>
  match a, b with
  | .ok x, .ok y =>
    if h : x = y then isTrue (by rw [h]) else isFalse (fun h2 => h (by injection h2))
  | .error x, .error y =>
    if h : x = y then isTrue (by rw [h]) else isFalse (fun h2 => h (by injection h2))
  | .ok _, .error _ => isFalse (fun h => by cases h)
  | .error _, .ok _ => isFalse (fun h => by cases h)

/-- A `std::istringstream`: the characters not yet read, and whether the stream
is still good (neither `eofbit` nor `failbit` set). -/
structure istringstream where
  rest : List Char
  good : Bool
deriving DecidableEq

/-- The stream over the characters of the buffer. -/
def istringstream.of (buffer : String) : istringstream := ⟨buffer.data, true⟩

/-- The characters before the first line feed, and the characters after it when
there is one. -/
def split_line : List Char → List Char × Option (List Char)
  | [] => ([], none)
  | c :: t =>
    if c = '\n' then ([], some t)
    else ((c :: (split_line t).1), (split_line t).2)

/-- The call `getline(in, line)`: on a stream that is not good, `line` keeps its
value; otherwise `line` becomes the characters up to the line feed, and the
stream stops being good when the end is reached before a line feed. -/
def getline (is : istringstream) (line : String) : istringstream × String :=
  if is.good then
    match split_line is.rest with
    | (l, some r) => (⟨r, true⟩, String.mk l)
    | (l, none) => (⟨[], false⟩, String.mk l)
  else (is, line)

/-- The call `line.substr(pos, line.length() - pos)`: the characters from `pos`
on, and `std::out_of_range` when `pos` is past the end. -/
def substr (line : String) (pos : Nat) : Except Failure String :=
  if pos ≤ line.length then .ok (String.mk (line.data.drop pos)) else .error .out_of_range

/-- The white space `atoi` skips. -/
def isspace (c : Char) : Bool :=
  c = ' ' || c = '\t' || c = '\n' || c = Char.ofNat 11 || c = Char.ofNat 12 || c = '\r'

/-- The value of the leading decimal digits, continuing from `acc`. -/
def digits_value : List Char → Nat → Nat
  | [], acc => acc
  | c :: t, acc =>
    if 48 ≤ c.toNat ∧ c.toNat ≤ 57 then digits_value t (acc * 10 + (c.toNat - 48)) else acc

/-- The result of `strtol` for a sign and the value of the digits: the number,
kept within the range of a `long` of 64 bits (`LONG_MIN` or `LONG_MAX` stands
for a number beyond it). -/
def strtol_result (negative : Bool) (magnitude : Nat) : Int :=
  if negative then
    if 9223372036854775808 < magnitude then -9223372036854775808 else - (magnitude : Int)
  else
    if 9223372036854775807 < magnitude then 9223372036854775807 else (magnitude : Int)

/-- The conversion of a `long` to `int`: the low 32 bits, read as a two's
complement number. -/
def long_to_int (v : Int) : Int := (v + 2147483648) % 4294967296 - 2147483648

/-- The call `std::atoi(temp.c_str())`, which the C library carries out as
`(int) strtol(temp, NULL, 10)`: white space, an optional sign, then the leading
digits; 0 when no digit follows.  The result is an `int`: the text
"4294967296" reads as 0. -/
def atoi (temp : String) : Int :=
  match temp.data.dropWhile isspace with
  | [] => 0
  | c :: t =>
    if c = '-' then long_to_int (strtol_result true (digits_value t 0))
    else if c = '+' then long_to_int (strtol_result false (digits_value t 0))
    else long_to_int (strtol_result false (digits_value (c :: t) 0))

/-- The field reading at the start of `message_received`: the first line picks
the command, the following lines give its fields. -/
def read_command (buffer : String) : Except Failure Command :=
  let (is1, line1) := getline (istringstream.of buffer) ""
  if line1 = "CHANGE" then
    let (is2, line2) := getline is1 line1
    match substr line2 5 with
    | .error e => .error e
    | .ok file_name =>
      let (is3, line3) := getline is2 line2
      match substr line3 8 with
      | .error e => .error e
      | .ok temp =>
        let version := atoi temp
        let (is4, line4) := getline is3 line3
        match substr line4 5 with
        | .error e => .error e
        | .ok cellname =>
          let (is5, line5) := getline is4 line4
          match substr line5 7 with
          | .error e => .error e
          | .ok length =>
            let (_, line6) := getline is5 line5
            .ok (.change file_name version cellname length line6)
  else if line1 = "UNDO" then
    let (is2, line2) := getline is1 line1
    match substr line2 5 with
    | .error e => .error e
    | .ok file_name =>
      let (_, line3) := getline is2 line2
      match substr line3 8 with
      | .error e => .error e
      | .ok temp => .ok (.undo file_name (atoi temp))
  else if line1 = "SAVE" then
    let (_, line2) := getline is1 line1
    match substr line2 5 with
    | .error e => .error e
    | .ok file_name => .ok (.save file_name)
  else if line1 = "LEAVE" then
    let (_, line2) := getline is1 line1
    match substr line2 5 with
    | .error e => .error e
    | .ok file_name => .ok (.leave file_name)
  else .ok .unknown

/-- Translation of `message_received` on the characters of a buffer received
without error: read the fields, then handle the command. -/
def spreadsheet_session.message_received_buffer (s : spreadsheet_session)
    (connection : tcp_connection) (buffer : String) :
    Except Failure (spreadsheet_session × List Effect) :=
  match read_command buffer with
  | .error e => .error e
  | .ok command =>
    match s.message_received connection command with
    | none => .error .undefined_behaviour
    | some r => .ok r

/-- The messages the server itself puts on the wire. -/
inductive ServerMessage where
  | create_ok (name password : String)
  | create_fail (name : String)
  | join_fail_not_exist (name : String)
  | join_fail_password (name : String)
  | error
deriving DecidableEq

/-- The text of a server message as the server assembles it. -/
def ServerMessage.text : ServerMessage → String
  | .create_ok name password => "CREATE OK\nName:" ++ name ++ "\nPassword:" ++ password ++ "\n"
  | .create_fail name => "CREATE FAIL\nName : " ++ name ++ "\nfile already exists\n"
  | .join_fail_not_exist name => "JOIN FAIL\nName:" ++ name ++ "\nFile does not exist.\n"
  | .join_fail_password name => "JOIN FAIL\nName:" ++ name ++ "\nPassword is invalid.\n"
  | .error => "ERROR\n"

/-- What a server handler does to the outside world: a message of its own, an
effect of a session it called into, or text appended to a file. -/
inductive ServerEffect where
  | send (connection : tcp_connection) (message : ServerMessage)
  | session (effect : Effect)
  | append_file (path : String) (data : String)
deriving DecidableEq

/-- Lookup in a `std::map` with `std::string` keys whose entries the server
never iterates over (`find`, `none` for `end()`). -/
def table_find {β : Type} (k : String) : List (String × β) → Option β
  | [] => none
  | (k', v) :: t => if k' = k then some v else table_find k t

/-- The call `insert(pair(k, v))` on such a map: an existing entry is kept. -/
def table_insert {β : Type} (k : String) (v : β) (l : List (String × β)) : List (String × β) :=
  match table_find k l with
  | some _ => l
  | none => l ++ [(k, v)]

/-- Replacement of the value stored under a key that is present. -/
def table_update {β : Type} (k : String) (v : β) : List (String × β) → List (String × β)
  | [] => []
  | (k', v') :: t => if k' = k then (k', v) :: t else (k', v') :: table_update k v t

/-- Removal of the entry of a key. -/
def table_erase {β : Type} (k : String) : List (String × β) → List (String × β)
  | [] => []
  | (k', v') :: t => if k' = k then t else (k', v') :: table_erase k t

/-- The member variables of `tcp_server`, and the threads it started.

* `files` maps a document name to its XML file name and its password.
* `sessions` maps an XML file name to a session; the source stores a pointer,
  the model keeps the session object in its place.
* `unregistered` holds the session objects that were constructed but whose
  `insert` into `sessions` found the key taken: nothing deletes them.
* `threads` holds the arguments of the `create_thread` calls that were started
  and have not run yet. -/
structure tcp_server where
  files : List (String × (String × String))
  sessions : List (String × spreadsheet_session)
  unregistered : List spreadsheet_session
  threads : List (String × String × tcp_connection)
deriving DecidableEq

namespace tcp_server

/-- The field reading shared by `create_received` and `join_received`: the
second line without its first 5 characters, the third without its first 9. -/
def read_name_password (received : String) : Except Failure (String × String) :=
  let (is1, line1) := getline (istringstream.of received) ""
  let (is2, line2) := getline is1 line1
  match substr line2 5 with
  | .error e => .error e
  | .ok filename =>
    let (_, line3) := getline is2 line2
    match substr line3 9 with
    | .error e => .error e
    | .ok password => .ok (filename, password)

/-- Translation of `create_received` after the name and password were read. -/
def create_named (srv : tcp_server) (connection : tcp_connection)
    (filename password : String) : tcp_server × List ServerEffect :=
  match table_find filename srv.files with
  | some _ => (srv, [ServerEffect.send connection (ServerMessage.create_fail filename)])
  | none =>
    let file_count := srv.files.length + 1
    let xml_name := "xml" ++ toString file_count ++ ".xml"
    let data := "<?xml version=\"1.0\" encoding=\"utf-8\"?>\r\n<spreadsheet>\r\n</spreadsheet>"
    ({ srv with files := table_insert filename (xml_name, password) srv.files },
      [ServerEffect.append_file xml_name data,
       ServerEffect.append_file "spreadsheet_files.txt"
         ("\n" ++ filename ++ "\n" ++ password ++ "\n" ++ xml_name ++ "\n"),
       ServerEffect.send connection (ServerMessage.create_ok filename password)])

/-- Translation of `create_received`. -/
def create_received (srv : tcp_server) (connection : tcp_connection) (received : String) :
    Except Failure (tcp_server × List ServerEffect) :=
  match read_name_password received with
  | .error e => .error e
  | .ok (filename, password) => .ok (srv.create_named connection filename password)

/-- Translation of `join_received` after the name and password were read.  When
no session is registered for the file, the handler only starts a thread. -/
def join_named (srv : tcp_server) (connection : tcp_connection)
    (filename password : String) : tcp_server × List ServerEffect :=
  match table_find filename srv.files with
  | none => (srv, [ServerEffect.send connection (ServerMessage.join_fail_not_exist filename)])
  | some (xml_file, saved_password) =>
    if saved_password ≠ password then
      (srv, [ServerEffect.send connection (ServerMessage.join_fail_password filename)])
    else
      match table_find xml_file srv.sessions with
      | some session =>
        let (s1, e1) := session.add_user connection
        ({ srv with sessions := table_update xml_file s1 srv.sessions },
          e1.map ServerEffect.session)
      | none =>
        ({ srv with threads := srv.threads ++ [(filename, xml_file, connection)] }, [])

/-- Translation of `join_received`. -/
def join_received (srv : tcp_server) (connection : tcp_connection) (received : String) :
    Except Failure (tcp_server × List ServerEffect) :=
  match read_name_password received with
  | .error e => .error e
  | .ok (filename, password) => .ok (srv.join_named connection filename password)

/-- Translation of `create_thread`; `pt` is what `read_xml` gives for the file
when the session opens it, `none` when it throws.  The session is constructed
first and inserted afterwards, and `insert` keeps an entry that is there. -/
def create_thread (srv : tcp_server) (filename_ xmlfile : String) (connection_ : tcp_connection)
    (pt : Option Document) : Except Failure (tcp_server × List ServerEffect) :=
  match pt with
  | none => .error .xml_parser_error
  | some pt =>
    let (temp_session, e1) := spreadsheet_session.create filename_ xmlfile pt connection_
    match table_find xmlfile srv.sessions with
    | none =>
      .ok ({ srv with sessions := table_insert xmlfile temp_session srv.sessions },
        e1.map ServerEffect.session)
    | some _ =>
      .ok ({ srv with unregistered := srv.unregistered ++ [temp_session] },
        e1.map ServerEffect.session)

/-- The oldest started thread runs `create_thread`. -/
def run_thread (srv : tcp_server) (pt : Option Document) :
    Except Failure (tcp_server × List ServerEffect) :=
  match srv.threads with
  | [] => .ok (srv, [])
  | (filename_, xmlfile, connection_) :: rest =>
    create_thread { srv with threads := rest } filename_ xmlfile connection_ pt

/-- Translation of `close_session`, the slot connected to a session's signal:
the session is deleted and its entry erased.  No session ever emits the
signal. -/
def close_session (srv : tcp_server) (xmlfile : String) : tcp_server :=
  { srv with sessions := table_erase xmlfile srv.sessions }

/-- Translation of `server_handle_read` on a buffer received without error. -/
def server_handle_read (srv : tcp_server) (connection : tcp_connection) (buffer : String) :
    Except Failure (tcp_server × List ServerEffect) :=
  let (_, line) := getline (istringstream.of buffer) ""
  if line = "CREATE" then srv.create_received connection buffer
  else if line = "JOIN" then srv.join_received connection buffer
  else .ok (srv, [ServerEffect.send connection ServerMessage.error])

/-- A read on a connection that joined the session registered for `xmlfile`
completes: the session's `message_received` runs on the buffer. -/
def session_read (srv : tcp_server) (xmlfile : String) (connection : tcp_connection)
    (buffer : String) : Except Failure (tcp_server × List ServerEffect) :=
  match table_find xmlfile srv.sessions with
  | none => .ok (srv, [])
  | some session =>
    match session.message_received_buffer connection buffer with
    | .error e => .error e
    | .ok (s1, e1) =>
      .ok ({ srv with sessions := table_update xmlfile s1 srv.sessions },
        e1.map ServerEffect.session)

end tcp_server

/-- What happens at the server, one after the other. -/
inductive Event where
  | read (connection : tcp_connection) (buffer : String)
  | thread (pt : Option Document)
  | session_read (xmlfile : String) (connection : tcp_connection) (buffer : String)
deriving DecidableEq

/-- The handler of one event. -/
def tcp_server.handle (srv : tcp_server) : Event → Except Failure (tcp_server × List ServerEffect)
  | .read connection buffer => srv.server_handle_read connection buffer
  | .thread pt => srv.run_thread pt
  | .session_read xmlfile connection buffer => srv.session_read xmlfile connection buffer

/-- The server after a sequence of events, with all the effects in order. -/
def tcp_server.run (srv : tcp_server) : List Event → Except Failure (tcp_server × List ServerEffect)
  | [] => .ok (srv, [])
  | ev :: rest =>
    match srv.handle ev with
    | .error e => .error e
    | .ok (srv1, e1) =>
      match tcp_server.run srv1 rest with
      | .error e => .error e
      | .ok (srv2, e2) => .ok (srv2, e1 ++ e2)

/-- The session `budget_v3` after connection 2 sent LEAVE: connection 1 is the
only subscriber, the counter is 1, three changes are on the stack. -/
def budget_v3_left : spreadsheet_session :=
  final_state budget_v3 (trace budget_v3.used_cells budget_v3 [(2, .leave "budget")])

/-- The session `budget_v3_left` after a second LEAVE of connection 2 and one
more edit by connection 1, the subscriber that is left. -/
def budget_v3_drifted : spreadsheet_session :=
  final_state budget_v3_left (trace budget_v3_left.used_cells budget_v3_left
    [(2, .leave "budget"), (1, .change "budget" 3 "C3" "1" "7")])

/-! ## Sample servers -/

/-- The server whose catalog holds the document "budget" with password "pw",
stored in the file "xml1.xml"; no session is running. -/
def budget_server : tcp_server :=
  { files := [("budget", ("xml1.xml", "pw"))], sessions := [], unregistered := [], threads := [] }

/-- A JOIN FAIL sent to anybody. -/
def is_join_fail : ServerEffect → Bool
  | .send _ (.join_fail_not_exist _) => true
  | .send _ (.join_fail_password _) => true
  | _ => false

/-- The JOIN of the document "budget" with the right password, read from
`connection`. -/
def join_budget (connection : tcp_connection) : Event :=
  .read connection "JOIN\nName:budget\nPassword:pw\n"

/-- Connection 1 joins "budget" (the session is constructed on the empty file),
makes one edit and leaves. -/
def last_leaves : List Event :=
  [join_budget 1,
   .thread (some []),
   .session_read "xml1.xml" 1 "CHANGE\nName:budget\nVersion:0\nCell:A1\nLength:1\n5\n",
   .session_read "xml1.xml" 1 "LEAVE\nName:budget\n"]

/-- Connections 1 and 2 join "budget" one right after the other; the two
threads the joins started run afterwards. -/
def joins_race : List Event :=
  [join_budget 1, join_budget 2, .thread (some []), .thread (some [])]

/-! ## Subscriber events and catalog histories -/

/-- What can happen to the subscribers of a session: `add_user` is called, a
LEAVE is handled, a receive fails, or a send fails. -/
inductive SubscriberEvent where
  | add_user (connection : tcp_connection)
  | leave (connection : tcp_connection) (file_name : String)
  | receive_error (connection : tcp_connection)
  | send_error (connection : tcp_connection)
deriving DecidableEq

/-- The session after one subscriber event. -/
def spreadsheet_session.subscriber_event (s : spreadsheet_session) :
    SubscriberEvent → spreadsheet_session
  | .add_user connection => (s.add_user connection).1
  | .leave connection file_name =>
    match s.message_received connection (.leave file_name) with
    | some r => r.1
    | none => s
  | .receive_error connection => (s.receive_error connection).1
  | .send_error connection => (s.send_callback_error connection).1

/-- The session after a sequence of subscriber events. -/
def spreadsheet_session.subscriber_events (s : spreadsheet_session)
    (events : List SubscriberEvent) : spreadsheet_session :=
  events.foldl spreadsheet_session.subscriber_event s

/-- The session of "budget" as its constructor leaves it, opened by connection 1
on an empty file. -/
def budget_new : spreadsheet_session :=
  (spreadsheet_session.create "budget" "xml1.xml" [] 1).1

/-- The server with nothing in its catalog and no session. -/
def tcp_server.empty : tcp_server :=
  { files := [], sessions := [], unregistered := [], threads := [] }

/-- The server after a sequence of CREATE commands, each given by the sending
connection, the name and the password. -/
def tcp_server.creates (srv : tcp_server) :
    List (tcp_connection × String × String) → tcp_server
  | [] => srv
  | (connection, name, password) :: rest =>
    tcp_server.creates (srv.create_named connection name password).1 rest

/-- The path `create_received` allocates when the catalog holds `size` entries
before the insertion that makes it `size + 1`. -/
def xml_path (file_count : Nat) : String := "xml" ++ toString file_count ++ ".xml"

/-- The paths of a catalog are the allocated ones, in the order of creation. -/
def paths_in_order (files : List (String × (String × String))) : Prop :=
  files.map (fun e => e.2.1) = (List.range files.length).map (fun i => xml_path (i + 1))

/-- Three CREATE commands, the third for a name that is taken. -/
def three_creates : List (tcp_connection × String × String) :=
  [(1, "budget", "pw"), (2, "plan", "secret"), (3, "budget", "other")]

/-- The lookup that precedes the erase finds its cell at every entry of the undo
log, when the entries are popped and reverted one after the other. -/
def lookup_safe : List (String × String) → string_map → Prop
  | [], _ => True
  | e :: rest, m => (e.2 = "" → m.find e.1 ≠ none) ∧ lookup_safe rest (revert m e)

/-- No cell of the store has empty content. -/
def no_empty_content (m : string_map) : Prop := ∀ k, m.find k ≠ some ""

/-- The command is not a CHANGE with empty content. -/
def Command.keeps_content : Command → Prop
  | .change _ _ _ _ content => content ≠ ""
  | _ => True

/-! ## Facts about the map model -/

theorem entries_find_insert_self {k v : String} :
    ∀ {l : List (String × String)}, entries_find k l = none →
      entries_find k (entries_insert k v l) = some v
  | [], _ => by simp [entries_insert, entries_find]
  | (k', v') :: t, h => by
    unfold entries_find at h
    split_ifs at h with h0
    unfold entries_insert
    split_ifs with h1 h2
    · simp [entries_find]
    · exact absurd h2.symm h0
    · unfold entries_find
      rw [if_neg h0]
      exact entries_find_insert_self h

theorem entries_find_insert_ne {k v k2 : String} (hne : k2 ≠ k) :
    ∀ l : List (String × String), entries_find k2 (entries_insert k v l) = entries_find k2 l
  | [] => by simp [entries_insert, entries_find, Ne.symm hne]
  | (k', v') :: t => by
    unfold entries_insert
    split_ifs with h1 h2
    · conv_lhs => unfold entries_find
      rw [if_neg (Ne.symm hne)]
    · rfl
    · conv_lhs => unfold entries_find
      conv_rhs => unfold entries_find
      rw [entries_find_insert_ne hne t]

theorem entries_find_assign_self {k v : String} :
    ∀ l : List (String × String), entries_find k (entries_assign k v l) = some v
  | [] => by simp [entries_assign, entries_find]
  | (k', v') :: t => by
    unfold entries_assign
    split_ifs with h1 h2
    · simp [entries_find]
    · simp [entries_find, h2]
    · unfold entries_find
      rw [if_neg (Ne.symm h2)]
      exact entries_find_assign_self t

theorem entries_find_assign_ne {k v k2 : String} (hne : k2 ≠ k) :
    ∀ l : List (String × String), entries_find k2 (entries_assign k v l) = entries_find k2 l
  | [] => by simp [entries_assign, entries_find, Ne.symm hne]
  | (k', v') :: t => by
    unfold entries_assign
    split_ifs with h1 h2
    · conv_lhs => unfold entries_find
      rw [if_neg (Ne.symm hne)]
    · subst h2
      conv_lhs => unfold entries_find
      conv_rhs => unfold entries_find
      rw [if_neg (Ne.symm hne), if_neg (Ne.symm hne)]
    · conv_lhs => unfold entries_find
      conv_rhs => unfold entries_find
      rw [entries_find_assign_ne hne t]

theorem entries_find_none_of_lt {k : String} :
    ∀ {l : List (String × String)}, (∀ a ∈ l, key_lt k a.1) → entries_find k l = none
  | [], _ => rfl
  | (k', v') :: t, h => by
    unfold entries_find
    have h0 : k' ≠ k := by
      intro h0
      have := h (k', v') (List.mem_cons_self _ _)
      rw [h0] at this
      exact key_lt_irrefl k this
    rw [if_neg h0]
    exact entries_find_none_of_lt (fun a ha => h a (List.mem_cons_of_mem _ ha))

theorem entries_find_erase_self {k : String} :
    ∀ {l : List (String × String)}, keys_ascending l → entries_find k (entries_erase k l) = none
  | [], _ => rfl
  | (k', v') :: t, h => by
    have hc := List.pairwise_cons.mp h
    unfold entries_erase
    split_ifs with h0
    · subst h0
      exact entries_find_none_of_lt hc.1
    · unfold entries_find
      rw [if_neg h0]
      exact entries_find_erase_self hc.2

theorem entries_find_erase_ne {k k2 : String} (hne : k2 ≠ k) :
    ∀ l : List (String × String), entries_find k2 (entries_erase k l) = entries_find k2 l
  | [] => rfl
  | (k', v') :: t => by
    unfold entries_erase
    split_ifs with h0
    · subst h0
      conv_rhs => unfold entries_find
      rw [if_neg (Ne.symm hne)]
    · conv_lhs => unfold entries_find
      conv_rhs => unfold entries_find
      rw [entries_find_erase_ne hne t]

theorem entries_erase_insert {k v : String} :
    ∀ {l : List (String × String)}, entries_find k l = none →
      entries_erase k (entries_insert k v l) = l
  | [], _ => by simp [entries_insert, entries_erase]
  | (k', v') :: t, h => by
    unfold entries_find at h
    split_ifs at h with h0
    unfold entries_insert
    split_ifs with h1 h2
    · simp [entries_erase]
    · exact absurd h2.symm h0
    · unfold entries_erase
      rw [if_neg h0, entries_erase_insert h]

namespace string_map

theorem ext_entries {m1 m2 : string_map} (h : m1.entries = m2.entries) : m1 = m2 := by
  cases m1
  cases m2
  cases h
  rfl

theorem find_insert_self {m : string_map} {k : String} (v : String) (h : m.find k = none) :
    (m.insert k v).find k = some v :=
  entries_find_insert_self h

theorem find_insert_ne (m : string_map) {k k2 : String} (v : String) (hne : k2 ≠ k) :
    (m.insert k v).find k2 = m.find k2 :=
  entries_find_insert_ne hne m.entries

theorem find_assign_self (m : string_map) (k v : String) : (m.assign k v).find k = some v :=
  entries_find_assign_self m.entries

theorem find_assign_ne (m : string_map) {k k2 : String} (v : String) (hne : k2 ≠ k) :
    (m.assign k v).find k2 = m.find k2 :=
  entries_find_assign_ne hne m.entries

theorem find_erase_self (m : string_map) (k : String) : (m.erase k).find k = none :=
  entries_find_erase_self m.ascending

theorem find_erase_ne (m : string_map) {k k2 : String} (hne : k2 ≠ k) :
    (m.erase k).find k2 = m.find k2 :=
  entries_find_erase_ne hne m.entries

theorem erase_insert {m : string_map} {k : String} (v : String) (h : m.find k = none) :
    (m.insert k v).erase k = m :=
  ext_entries (entries_erase_insert h)

end string_map

/-! ## The handler, branch by branch -/

namespace spreadsheet_session

theorem send_update_mem (s : spreadsheet_session) (connection : tcp_connection)
    (cell_name length cell_data : String) (e : Effect) :
    e ∈ s.send_update connection cell_name length cell_data ↔
      ∃ u, u ∈ s.connected_users.elems ∧ u ≠ connection ∧
        e = Effect.send u (Message.update s.filename s.ss_version cell_name length cell_data) := by
  unfold send_update
  simp only [List.mem_map, List.mem_filter, decide_eq_true_eq]
  constructor
  · rintro ⟨u, ⟨hu, hne⟩, rfl⟩
    exact ⟨u, hu, hne, rfl⟩
  · rintro ⟨u, hu, hne, rfl⟩
    exact ⟨u, ⟨hu, hne⟩, rfl⟩

theorem send_update_no_ok (s : spreadsheet_session) (connection c : tcp_connection)
    (cell_name length cell_data : String) :
    (s.send_update connection cell_name length cell_data).any (is_ok_reply c) = false := by
  rw [List.any_eq_false]
  intro e he
  obtain ⟨u, _, _, rfl⟩ := (send_update_mem s connection cell_name length cell_data e).mp he
  simp [is_ok_reply]

theorem send_update_no_write (s : spreadsheet_session) (connection : tcp_connection)
    (cell_name length cell_data : String) :
    (s.send_update connection cell_name length cell_data).any is_write = false := by
  rw [List.any_eq_false]
  intro e he
  obtain ⟨u, _, _, rfl⟩ := (send_update_mem s connection cell_name length cell_data e).mp he
  simp [is_write]

theorem change_absent_result (s : spreadsheet_session) (connection : tcp_connection)
    (file_name cellname length content : String) (h : s.used_cells.find cellname = none) :
    s.message_received connection (.change file_name s.ss_version cellname length content) =
      some ({ s with
              used_cells := s.used_cells.insert cellname content
              changes := (cellname, "") :: s.changes
              ss_version := s.ss_version + 1 },
            ({ s with
              used_cells := s.used_cells.insert cellname content
              changes := (cellname, "") :: s.changes
              ss_version := s.ss_version + 1 } : spreadsheet_session).send_update
                connection cellname length content
              ++ [Effect.send connection (Message.change_ok file_name (s.ss_version + 1))]) := by
  simp only [message_received, h, if_true]

theorem change_present_result (s : spreadsheet_session) (connection : tcp_connection)
    (file_name cellname length content v : String) (h : s.used_cells.find cellname = some v) :
    s.message_received connection (.change file_name s.ss_version cellname length content) =
      some ({ s with
              used_cells := s.used_cells.assign cellname content
              changes := (cellname, v) :: s.changes
              ss_version := s.ss_version + 1 },
            ({ s with
              used_cells := s.used_cells.assign cellname content
              changes := (cellname, v) :: s.changes
              ss_version := s.ss_version + 1 } : spreadsheet_session).send_update
                connection cellname length content
              ++ [Effect.send connection (Message.change_ok file_name (s.ss_version + 1))]) := by
  simp only [message_received, h, if_true]

theorem change_stale_result (s : spreadsheet_session) (connection : tcp_connection)
    (file_name cellname length content : String) (version : Int) (h : version ≠ s.ss_version) :
    s.message_received connection (.change file_name version cellname length content) =
      some (s, [Effect.send connection (Message.change_wait file_name s.ss_version)]) := by
  simp only [message_received, h, if_false]

/-- The accepted CHANGE in one statement: the result exists, and what it is. -/
theorem change_step (s : spreadsheet_session) (connection : tcp_connection)
    (file_name cellname length content : String) :
    ∃ s1 : spreadsheet_session,
      s.message_received connection (.change file_name s.ss_version cellname length content) =
        some (s1, s1.send_update connection cellname length content
          ++ [Effect.send connection (Message.change_ok file_name (s.ss_version + 1))]) ∧
      s1.used_cells.find cellname = some content ∧
      (∀ other, other ≠ cellname → s1.used_cells.find other = s.used_cells.find other) ∧
      s1.changes = (cellname, s.used_cells.content cellname) :: s.changes ∧
      s1.ss_version = s.ss_version + 1 ∧
      s1.connected_users = s.connected_users ∧
      s1.filename = s.filename ∧ s1.xml_name = s.xml_name ∧ s1.user_count = s.user_count := by
  cases h : s.used_cells.find cellname with
  | none =>
    refine ⟨_, change_absent_result s connection file_name cellname length content h,
      string_map.find_insert_self content h,
      fun other hne => string_map.find_insert_ne _ content hne, ?_, rfl, rfl, rfl, rfl, rfl⟩
    simp [string_map.content, h]
  | some v =>
    refine ⟨_, change_present_result s connection file_name cellname length content v h,
      string_map.find_assign_self _ _ _,
      fun other hne => string_map.find_assign_ne _ content hne, ?_, rfl, rfl, rfl, rfl, rfl⟩
    simp [string_map.content, h]

theorem undo_stale_result (s : spreadsheet_session) (connection : tcp_connection)
    (file_name : String) (version : Int) (h : version ≠ s.ss_version) :
    s.message_received connection (.undo file_name version) =
      some (s, [Effect.send connection (Message.undo_wait file_name s.ss_version)]) := by
  simp only [message_received, h, ne_eq, not_false_eq_true, if_true]

theorem undo_end_result (s : spreadsheet_session) (connection : tcp_connection)
    (file_name : String) (h : s.changes = []) :
    s.message_received connection (.undo file_name s.ss_version) =
      some (s, [Effect.send connection (Message.undo_end file_name s.ss_version)]) := by
  simp only [message_received, h, ne_eq, not_true_eq_false, if_false]

theorem undo_accepted_result (s : spreadsheet_session) (connection : tcp_connection)
    (file_name cellname contents : String) (rest : List (String × String))
    (hlog : s.changes = (cellname, contents) :: rest)
    (hfind : contents = "" → s.used_cells.find cellname ≠ none) :
    s.message_received connection (.undo file_name s.ss_version) =
      some ({ s with
              used_cells := revert s.used_cells (cellname, contents)
              changes := rest
              ss_version := s.ss_version + 1 },
            ({ s with
              used_cells := revert s.used_cells (cellname, contents)
              changes := rest
              ss_version := s.ss_version + 1 } : spreadsheet_session).send_update
                connection cellname (toString contents.length) contents
              ++ [Effect.send connection
                    (Message.undo_ok file_name (s.ss_version + 1) cellname
                      (toString contents.length) contents)]) := by
  by_cases hc : contents = ""
  · cases hf : s.used_cells.find cellname with
    | none => exact absurd hf (hfind hc)
    | some v => simp only [message_received, hlog, hc, hf, revert, ne_eq, not_true_eq_false, if_false, if_true]
  · simp only [message_received, hlog, hc, revert, ne_eq, not_true_eq_false, if_false]

theorem undo_undefined (s : spreadsheet_session) (connection : tcp_connection)
    (file_name cellname : String) (rest : List (String × String))
    (hlog : s.changes = (cellname, "") :: rest)
    (hfind : s.used_cells.find cellname = none) :
    s.message_received connection (.undo file_name s.ss_version) = none := by
  simp only [message_received, hlog, hfind, ne_eq, not_true_eq_false, if_false, if_true]

end spreadsheet_session

/-! ## Facts about executions -/

theorem broadcast_then_reply (s1 : spreadsheet_session) (connection : tcp_connection)
    (cell len data : String) (reply : Message)
    (hr : is_ok_reply connection (Effect.send connection reply) = true) :
    (∀ u m, Effect.send u m ∈
        s1.send_update connection cell len data ++ [Effect.send connection reply] ↔
      (u ∈ s1.connected_users.elems ∧ u ≠ connection ∧
        m = Message.update s1.filename s1.ss_version cell len data) ∨
      (u = connection ∧ m = reply)) ∧
    ((s1.send_update connection cell len data ++ [Effect.send connection reply]).filter
      (is_ok_reply connection)).length = 1 := by
  constructor
  · intro u m
    rw [List.mem_append, spreadsheet_session.send_update_mem, List.mem_singleton]
    constructor
    · rintro (⟨w, hw, hne, he⟩ | he)
      · injection he with h1 h2
        subst h1
        exact Or.inl ⟨hw, hne, h2⟩
      · injection he with h1 h2
        exact Or.inr ⟨h1, h2⟩
    · rintro (⟨hw, hne, rfl⟩ | ⟨rfl, rfl⟩)
      · exact Or.inl ⟨u, hw, hne, rfl⟩
      · exact Or.inr rfl
  · have h0 : (s1.send_update connection cell len data).filter (is_ok_reply connection) = [] := by
      rw [List.filter_eq_nil_iff]
      intro e he
      have := spreadsheet_session.send_update_no_ok s1 connection connection cell len data
      rw [List.any_eq_false] at this
      exact this e he
    rw [List.filter_append, h0]
    simp [List.filter, hr]

/-- The handler is undefined exactly for an UNDO with the current version whose
top log entry has empty prior content and names a cell that is not in the
store. -/
theorem message_received_eq_none_iff (s : spreadsheet_session) (c : tcp_connection)
    (cmd : Command) :
    s.message_received c cmd = none ↔
      ∃ (file_name cellname : String) (rest : List (String × String)),
        cmd = .undo file_name s.ss_version ∧ s.changes = (cellname, "") :: rest ∧
        s.used_cells.find cellname = none := by
  constructor
  · intro h
    cases cmd with
    | change file_name version cellname length content =>
      by_cases hv : version = s.ss_version
      · subst hv
        obtain ⟨s1, h1, -⟩ :=
          spreadsheet_session.change_step s c file_name cellname length content
        rw [h1] at h
        exact absurd h (Option.some_ne_none _)
      · rw [spreadsheet_session.change_stale_result s c file_name cellname length content
          version hv] at h
        exact absurd h (Option.some_ne_none _)
    | undo file_name version =>
      by_cases hv : version = s.ss_version
      · subst hv
        cases hlog : s.changes with
        | nil =>
          rw [spreadsheet_session.undo_end_result s c file_name hlog] at h
          exact absurd h (Option.some_ne_none _)
        | cons e rest =>
          obtain ⟨cellname, contents⟩ := e
          by_cases hf : contents = "" → s.used_cells.find cellname ≠ none
          · rw [spreadsheet_session.undo_accepted_result s c file_name cellname contents rest
              hlog hf] at h
            exact absurd h (Option.some_ne_none _)
          · push_neg at hf
            obtain ⟨hc, hf⟩ := hf
            subst hc
            exact ⟨file_name, cellname, rest, rfl, rfl, hf⟩
      · rw [spreadsheet_session.undo_stale_result s c file_name version hv] at h
        exact absurd h (Option.some_ne_none _)
    | save file_name => simp [spreadsheet_session.message_received] at h
    | leave file_name => simp [spreadsheet_session.message_received] at h
    | unknown => simp [spreadsheet_session.message_received] at h
  · rintro ⟨file_name, cellname, rest, rfl, hlog, hf⟩
    exact spreadsheet_session.undo_undefined s c file_name cellname rest hlog hf

/-- The four shapes of a handled command: an accepted CHANGE, an accepted UNDO,
a save (the log is emptied, the file is written), or nothing of these. -/
theorem step_cases {s s1 : spreadsheet_session} {c : tcp_connection} {cmd : Command}
    {e1 : List Effect} (h : s.message_received c cmd = some (s1, e1)) :
    (∃ cellname content : String,
      s1.used_cells.find cellname = some content ∧
      (∀ other, other ≠ cellname → s1.used_cells.find other = s.used_cells.find other) ∧
      s1.changes = (cellname, s.used_cells.content cellname) :: s.changes ∧
      s1.ss_version = s.ss_version + 1 ∧
      e1.any (is_ok_reply c) = true ∧ e1.any is_write = false) ∨
    (∃ (cellname contents : String) (rest : List (String × String)),
      s.changes = (cellname, contents) :: rest ∧
      s1.used_cells = revert s.used_cells (cellname, contents) ∧
      s1.changes = rest ∧
      s1.ss_version = s.ss_version + 1 ∧
      e1.any (is_ok_reply c) = true ∧ e1.any is_write = false) ∨
    (s1.used_cells = s.used_cells ∧ s1.changes = [] ∧ s1.ss_version = s.ss_version ∧
      e1.any (is_ok_reply c) = false ∧ e1.any is_write = true) ∨
    (s1.used_cells = s.used_cells ∧ s1.changes = s.changes ∧ s1.ss_version = s.ss_version ∧
      e1.any (is_ok_reply c) = false ∧ e1.any is_write = false) := by
  cases cmd with
  | change file_name version cellname length content =>
    by_cases hv : version = s.ss_version
    · subst hv
      obtain ⟨s2, h1, hx, ho, hl, hver, -⟩ :=
        spreadsheet_session.change_step s c file_name cellname length content
      rw [h1] at h
      injection h with h
      injection h with hs he
      subst hs
      subst he
      refine Or.inl ⟨cellname, content, hx, ho, hl, hver, ?_, ?_⟩
      · rw [List.any_append]
        simp [is_ok_reply]
      · rw [List.any_append, spreadsheet_session.send_update_no_write]
        simp [is_write]
    · rw [spreadsheet_session.change_stale_result s c file_name cellname length content
        version hv] at h
      injection h with h
      injection h with hs he
      subst hs
      subst he
      exact Or.inr (Or.inr (Or.inr ⟨rfl, rfl, rfl, by simp [is_ok_reply], by simp [is_write]⟩))
  | undo file_name version =>
    by_cases hv : version = s.ss_version
    · subst hv
      cases hlog : s.changes with
      | nil =>
        rw [spreadsheet_session.undo_end_result s c file_name hlog] at h
        injection h with h
        injection h with hs he
        subst hs
        subst he
        exact Or.inr (Or.inr (Or.inr
          ⟨rfl, hlog, rfl, by simp [is_ok_reply], by simp [is_write]⟩))
      | cons e rest =>
        obtain ⟨cellname, contents⟩ := e
        by_cases hf : contents = "" → s.used_cells.find cellname ≠ none
        · rw [spreadsheet_session.undo_accepted_result s c file_name cellname contents rest
            hlog hf] at h
          injection h with h
          injection h with hs he
          subst hs
          subst he
          refine Or.inr (Or.inl ⟨cellname, contents, rest, rfl, rfl, rfl, rfl, ?_, ?_⟩)
          · rw [List.any_append]
            simp [is_ok_reply]
          · rw [List.any_append, spreadsheet_session.send_update_no_write]
            simp [is_write]
        · push_neg at hf
          obtain ⟨hc, hf⟩ := hf
          subst hc
          rw [spreadsheet_session.undo_undefined s c file_name cellname rest hlog hf] at h
          exact absurd h.symm (Option.some_ne_none _)
    · rw [spreadsheet_session.undo_stale_result s c file_name version hv] at h
      injection h with h
      injection h with hs he
      subst hs
      subst he
      exact Or.inr (Or.inr (Or.inr ⟨rfl, rfl, rfl, by simp [is_ok_reply], by simp [is_write]⟩))
  | save file_name =>
    simp only [spreadsheet_session.message_received, spreadsheet_session.save_ss,
      Option.some.injEq, Prod.mk.injEq] at h
    obtain ⟨hs, he⟩ := h
    subst hs
    subst he
    exact Or.inr (Or.inr (Or.inl ⟨rfl, rfl, rfl, by simp [is_ok_reply], by simp [is_write]⟩))
  | leave file_name =>
    simp only [spreadsheet_session.message_received, spreadsheet_session.remove_user,
      Option.some.injEq] at h
    split_ifs at h with h1 h2
    · simp only [spreadsheet_session.save_ss, Prod.mk.injEq] at h
      obtain ⟨hs, he⟩ := h
      subst hs
      subst he
      exact Or.inr (Or.inr (Or.inl ⟨rfl, rfl, rfl, by simp [is_ok_reply], by simp [is_write]⟩))
    · simp only [Prod.mk.injEq] at h
      obtain ⟨hs, he⟩ := h
      subst hs
      subst he
      exact Or.inr (Or.inr (Or.inr ⟨rfl, rfl, rfl, by simp, by simp⟩))
    · simp only [Prod.mk.injEq] at h
      obtain ⟨hs, he⟩ := h
      subst hs
      subst he
      exact Or.inr (Or.inr (Or.inr ⟨rfl, rfl, rfl, by simp, by simp⟩))
  | unknown =>
    simp only [spreadsheet_session.message_received, Option.some.injEq, Prod.mk.injEq] at h
    obtain ⟨hs, he⟩ := h
    subst hs
    subst he
    exact Or.inr (Or.inr (Or.inr ⟨rfl, rfl, rfl, by simp [is_ok_reply], by simp [is_write]⟩))

theorem step_version {s s1 : spreadsheet_session} {c : tcp_connection} {cmd : Command}
    {e1 : List Effect} (h : s.message_received c cmd = some (s1, e1)) :
    s1.ss_version = s.ss_version + (if e1.any (is_ok_reply c) = true then 1 else 0) := by
  rcases step_cases h with ⟨_, _, _, _, _, hv, hok, _⟩ | ⟨_, _, _, _, _, _, hv, hok, _⟩ |
    ⟨_, _, hv, hok, _⟩ | ⟨_, _, hv, hok, _⟩
  · rw [hv, hok]; rfl
  · rw [hv, hok]; rfl
  · rw [hv, hok]; simp
  · rw [hv, hok]; simp

theorem trace_nil (saved : string_map) (s : spreadsheet_session) : trace saved s [] = [] := rfl

theorem trace_cons_none {saved : string_map} {s : spreadsheet_session} {c : tcp_connection}
    {cmd : Command} (rest : List (tcp_connection × Command))
    (h : s.message_received c cmd = none) : trace saved s ((c, cmd) :: rest) = [] := by
  simp only [trace, h]

theorem trace_cons_some {saved : string_map} {s s1 : spreadsheet_session} {c : tcp_connection}
    {cmd : Command} {e1 : List Effect} (rest : List (tcp_connection × Command))
    (h : s.message_received c cmd = some (s1, e1)) :
    trace saved s ((c, cmd) :: rest) =
      ⟨c, cmd, s1, e1, if e1.any is_write = true then s1.used_cells else saved⟩ ::
        trace (if e1.any is_write = true then s1.used_cells else saved) s1 rest := by
  simp only [trace, h]

theorem content_revert (m : string_map) (e : String × String) (k : String) :
    (revert m e).content k = if k = e.1 then e.2 else m.content k := by
  unfold revert
  by_cases hk : k = e.1
  · subst hk
    rw [if_pos rfl]
    split_ifs with he
    · simp [string_map.content, string_map.find_erase_self, he]
    · simp [string_map.content, string_map.find_assign_self]
  · rw [if_neg hk]
    split_ifs with he
    · simp [string_map.content, string_map.find_erase_ne m hk]
    · simp [string_map.content, string_map.find_assign_ne m e.2 hk]

theorem replay_congr (log : List (String × String)) :
    ∀ m1 m2 : string_map, (∀ k, m1.content k = m2.content k) →
      ∀ k, (replay log m1).content k = (replay log m2).content k := by
  induction log with
  | nil => intro m1 m2 h k; exact h k
  | cons e t ih =>
    intro m1 m2 h k
    show (replay t (revert m1 e)).content k = (replay t (revert m2 e)).content k
    apply ih
    intro j
    rw [content_revert, content_revert, h j]

theorem step_replays_to {saved : string_map} {s s1 : spreadsheet_session} {c : tcp_connection}
    {cmd : Command} {e1 : List Effect} (h : s.message_received c cmd = some (s1, e1))
    (hinv : replays_to saved s) :
    replays_to (if e1.any is_write = true then s1.used_cells else saved) s1 := by
  rcases step_cases h with ⟨x, content, hx, ho, hl, -, -, hw⟩ | ⟨x, p, rest, hlog, hc, hl, -, -, hw⟩ |
    ⟨hc, hl, -, -, hw⟩ | ⟨hc, hl, -, -, hw⟩
  · rw [hw]
    simp only [Bool.false_eq_true, if_false]
    intro k
    rw [← hinv k, hl]
    show (replay s.changes (revert s1.used_cells (x, s.used_cells.content x))).content k = _
    apply replay_congr
    intro j
    rw [content_revert]
    by_cases hj : j = x
    · subst hj
      rw [if_pos rfl]
    · rw [if_neg hj]
      simp [string_map.content, ho j hj]
  · rw [hw]
    simp only [Bool.false_eq_true, if_false]
    intro k
    rw [← hinv k, hl, hc, hlog]
    rfl
  · rw [hw]
    simp only [if_true]
    intro k
    rw [hl]
    rfl
  · rw [hw]
    simp only [Bool.false_eq_true, if_false]
    intro k
    rw [hl, hc]
    exact hinv k

theorem trace_replays_to (cmds : List (tcp_connection × Command)) :
    ∀ (saved : string_map) (s : spreadsheet_session), replays_to saved s →
      ∀ r ∈ trace saved s cmds, replays_to r.saved r.state := by
  induction cmds with
  | nil => intro saved s _ r hr; simp [trace_nil] at hr
  | cons p rest ih =>
    intro saved s hinv r hr
    obtain ⟨c, cmd⟩ := p
    cases hm : s.message_received c cmd with
    | none => simp [trace_cons_none rest hm] at hr
    | some q =>
      obtain ⟨s1, e1⟩ := q
      rw [trace_cons_some rest hm] at hr
      have h1 := step_replays_to hm hinv
      rcases List.mem_cons.mp hr with rfl | hr
      · exact h1
      · exact ih _ s1 h1 r hr

theorem property_tree_eq (s : spreadsheet_session) :
    s.property_tree = s.used_cells.entries.map (fun it => ⟨it.1, it.2⟩) := by
  unfold spreadsheet_session.property_tree
  cases s.used_cells.entries <;> rfl

theorem entries_insert_last {k v : String} :
    ∀ {l : List (String × String)}, (∀ a ∈ l, key_lt a.1 k) →
      entries_insert k v l = l ++ [(k, v)]
  | [], _ => rfl
  | (k', v') :: t, h => by
    have hk : key_lt k' k := h (k', v') (List.mem_cons_self _ _)
    have h1 : ¬ key_lt k k' := fun h1 => key_lt_irrefl k (key_lt_trans h1 hk)
    have h2 : k ≠ k' := by
      intro h2
      rw [h2] at hk
      exact key_lt_irrefl k' hk
    unfold entries_insert
    rw [if_neg h1, if_neg h2, entries_insert_last (fun a ha => h a (List.mem_cons_of_mem _ ha))]
    rfl

theorem load_entries :
    ∀ (l : List (String × String)) (m : string_map), keys_ascending l →
      (∀ a ∈ m.entries, ∀ b ∈ l, key_lt a.1 b.1) →
      ((l.map (fun it => (⟨it.1, it.2⟩ : cell_node))).foldl
        (fun (m : string_map) (child : cell_node) =>
          if child.name ≠ "" ∧ child.contents ≠ "" then m.insert child.name child.contents
          else m) m).entries =
        m.entries ++ l.filter (fun e => decide (e.1 ≠ "" ∧ e.2 ≠ ""))
  | [], m, _, _ => by simp
  | e :: t, m, hl, hm => by
    have hc := List.pairwise_cons.mp hl
    rw [List.map_cons, List.foldl_cons]
    by_cases hp : e.1 ≠ "" ∧ e.2 ≠ ""
    · rw [if_pos hp, load_entries t (m.insert e.1 e.2) hc.2]
      · have hins : (m.insert e.1 e.2).entries = m.entries ++ [e] :=
          entries_insert_last (fun a ha => hm a ha e (List.mem_cons_self _ _))
        rw [hins, List.filter_cons, if_pos (by simpa using hp)]
        simp
      · intro a ha b hb
        have hins : (m.insert e.1 e.2).entries = m.entries ++ [e] :=
          entries_insert_last (fun a ha => hm a ha e (List.mem_cons_self _ _))
        rw [hins, List.mem_append, List.mem_singleton] at ha
        rcases ha with ha | rfl
        · exact hm a ha b (List.mem_cons_of_mem _ hb)
        · exact hc.1 b hb
    · rw [if_neg hp, load_entries t m hc.2 (fun a ha b hb => hm a ha b (List.mem_cons_of_mem _ hb)),
        List.filter_cons, if_neg (by simpa using hp)]

/-! ## Facts about the subscriber set -/

theorem mem_handles_erase {c a : tcp_connection} :
    ∀ {l : List tcp_connection}, l.Pairwise (· < ·) → (a ∈ handles_erase c l ↔ a ∈ l ∧ a ≠ c)
  | [], _ => by simp [handles_erase]
  | d :: t, h => by
    have hc := List.pairwise_cons.mp h
    unfold handles_erase
    split_ifs with h0
    · subst h0
      constructor
      · intro ha
        refine ⟨List.mem_cons_of_mem _ ha, ?_⟩
        intro hEq
        subst hEq
        exact Nat.lt_irrefl _ (hc.1 a ha)
      · rintro ⟨ha, hne⟩
        rcases List.mem_cons.mp ha with rfl | ha
        · exact absurd rfl hne
        · exact ha
    · rw [List.mem_cons, mem_handles_erase hc.2, List.mem_cons]
      constructor
      · rintro (rfl | ⟨ha, hne⟩)
        · exact ⟨Or.inl rfl, h0⟩
        · exact ⟨Or.inr ha, hne⟩
      · rintro ⟨rfl | ha, hne⟩
        · exact Or.inl rfl
        · exact Or.inr ⟨ha, hne⟩

theorem handles_erase_length {c : tcp_connection} :
    ∀ {l : List tcp_connection}, c ∈ l → (handles_erase c l).length + 1 = l.length
  | [], h => by simp at h
  | d :: t, h => by
    unfold handles_erase
    split_ifs with h0
    · rfl
    · rcases List.mem_cons.mp h with rfl | h
      · exact absurd rfl h0
      · rw [List.length_cons, List.length_cons, handles_erase_length h]

theorem connection_set.mem_insert (u : connection_set) (c a : tcp_connection) :
    a ∈ (u.insert c).elems ↔ a = c ∨ a ∈ u.elems :=
  mem_handles_insert

theorem connection_set.mem_erase (u : connection_set) (c a : tcp_connection) :
    a ∈ (u.erase c).elems ↔ a ∈ u.elems ∧ a ≠ c :=
  mem_handles_erase u.ascending

/-- The LEAVE branch spelled out: the connection is erased, the counter goes
down by one, and the file is written exactly when the counter arrives at zero
with changes on the stack. -/
theorem leave_result (s : spreadsheet_session) (connection : tcp_connection)
    (file_name : String) :
    ∃ (s1 : spreadsheet_session) (eff : List Effect),
      s.message_received connection (.leave file_name) = some (s1, eff) ∧
      s1.connected_users = s.connected_users.erase connection ∧
      s1.user_count = s.user_count - 1 ∧
      s1.used_cells = s.used_cells ∧ s1.ss_version = s.ss_version ∧
      ((s.user_count - 1 = 0 ∧ s.changes ≠ []) →
        s1.changes = [] ∧ eff = [Effect.write_xml s.xml_name s.property_tree]) ∧
      (¬ (s.user_count - 1 = 0 ∧ s.changes ≠ []) → s1.changes = s.changes ∧ eff = []) := by
  by_cases h1 : s.user_count - 1 = 0
  · by_cases h2 : s.changes = []
    · refine ⟨{ s with
          connected_users := s.connected_users.erase connection
          user_count := s.user_count - 1 }, [], ?_, rfl, rfl, rfl, rfl,
        fun h => absurd h2 h.2, fun _ => ⟨rfl, rfl⟩⟩
      simp [spreadsheet_session.message_received, spreadsheet_session.remove_user, h1, h2]
    · refine ⟨{ s with
          connected_users := s.connected_users.erase connection
          user_count := s.user_count - 1
          changes := [] }, [Effect.write_xml s.xml_name s.property_tree], ?_, rfl, rfl, rfl, rfl,
        fun _ => ⟨rfl, rfl⟩, fun h => absurd ⟨h1, h2⟩ h⟩
      simp [spreadsheet_session.message_received, spreadsheet_session.remove_user, h1, h2,
        spreadsheet_session.save_ss, spreadsheet_session.property_tree]
  · refine ⟨{ s with
        connected_users := s.connected_users.erase connection
        user_count := s.user_count - 1 }, [], ?_, rfl, rfl, rfl, rfl,
      fun h => absurd h.1 h1, fun _ => ⟨rfl, rfl⟩⟩
    simp [spreadsheet_session.message_received, spreadsheet_session.remove_user, h1]

/-- When the counter equals the number of subscribers and the leaving connection
is one of them, LEAVE does what the specification says: the file is written
exactly when the subscriber set became empty with changes on the stack. -/
theorem leave_when_counter_right (s : spreadsheet_session) (connection : tcp_connection)
    (file_name : String) (hcount : s.user_count = s.connected_users.elems.length)
    (hmem : connection ∈ s.connected_users.elems) :
    ∃ (s1 : spreadsheet_session) (eff : List Effect),
      s.message_received connection (.leave file_name) = some (s1, eff) ∧
      (∀ u, u ∈ s1.connected_users.elems ↔ u ∈ s.connected_users.elems ∧ u ≠ connection) ∧
      (eff = [Effect.write_xml s.xml_name s.property_tree] ∨ eff = []) ∧
      (eff = [Effect.write_xml s.xml_name s.property_tree] ↔
        s1.connected_users.elems = [] ∧ s.changes ≠ []) := by
  obtain ⟨s1, eff, h, hu, -, -, -, hyes, hno⟩ := leave_result s connection file_name
  have hlen := handles_erase_length hmem
  have hiff : s.user_count - 1 = 0 ↔ s1.connected_users.elems = [] := by
    rw [hu, hcount]
    show _ ↔ handles_erase connection s.connected_users.elems = []
    rw [← List.length_eq_zero]
    omega
  refine ⟨s1, eff, h, ?_, ?_, ?_⟩
  · intro u
    rw [hu]
    exact connection_set.mem_erase _ _ _
  · by_cases hc : s.user_count - 1 = 0 ∧ s.changes ≠ []
    · exact Or.inl (hyes hc).2
    · exact Or.inr (hno hc).2
  · by_cases hc : s.user_count - 1 = 0 ∧ s.changes ≠ []
    · exact ⟨fun _ => ⟨hiff.mp hc.1, hc.2⟩, fun _ => (hyes hc).2⟩
    · constructor
      · intro he
        rw [(hno hc).2] at he
        exact absurd he (by simp)
      · intro hx
        exact absurd ⟨hiff.mpr hx.1, hx.2⟩ hc

/-! ## Facts about reading a buffer -/

theorem table_find_append_self {β : Type} (k : String) (v : β) :
    ∀ l : List (String × β), table_find k l = none → table_find k (l ++ [(k, v)]) = some v
  | [], _ => by simp [table_find]
  | (k', v') :: t, h => by
    unfold table_find at h
    split_ifs at h with h0
    rw [List.cons_append]
    unfold table_find
    rw [if_neg h0]
    exact table_find_append_self k v t h

theorem table_find_append_ne {β : Type} {k k2 : String} (v : β) (hne : k2 ≠ k) :
    ∀ l : List (String × β), table_find k2 (l ++ [(k, v)]) = table_find k2 l
  | [] => by simp [table_find, Ne.symm hne]
  | (k', v') :: t => by
    rw [List.cons_append]
    conv_lhs => unfold table_find
    conv_rhs => unfold table_find
    rw [table_find_append_ne v hne t]

theorem table_find_update_isSome {β : Type} (k k2 : String) (v : β) :
    ∀ l : List (String × β),
      (table_find k2 (table_update k v l)).isSome = (table_find k2 l).isSome
  | [] => rfl
  | (k', v') :: t => by
    unfold table_update
    split_ifs with h0
    · unfold table_find
      split_ifs <;> rfl
    · conv_lhs => unfold table_find
      conv_rhs => unfold table_find
      split_ifs
      · rfl
      · exact table_find_update_isSome k k2 v t

theorem table_find_insert_isSome {β : Type} (k k2 : String) (v : β) (l : List (String × β))
    (h : (table_find k2 l).isSome = true) : (table_find k2 (table_insert k v l)).isSome = true := by
  unfold table_insert
  cases hk : table_find k l with
  | some _ => exact h
  | none =>
    show (table_find k2 (l ++ [(k, v)])).isSome = true
    by_cases hne : k2 = k
    · subst hne
      rw [hk] at h
      cases h
    · rw [table_find_append_ne v hne l]
      exact h

theorem create_named_sessions (srv : tcp_server) (connection : tcp_connection)
    (filename password : String) :
    (srv.create_named connection filename password).1.sessions = srv.sessions := by
  unfold tcp_server.create_named
  split <;> rfl

theorem join_named_sessions (srv : tcp_server) (connection : tcp_connection)
    (filename password xml : String) (hx : (table_find xml srv.sessions).isSome = true) :
    (table_find xml (srv.join_named connection filename password).1.sessions).isSome = true := by
  unfold tcp_server.join_named
  split
  · exact hx
  · split_ifs
    · exact hx
    · split
      · show (table_find xml (table_update _ _ srv.sessions)).isSome = true
        rw [table_find_update_isSome]
        exact hx
      · exact hx

/-- No handler of the server takes an entry out of `sessions`: a session that
is registered stays registered whatever happens next. -/
theorem sessions_never_removed {srv srv1 : tcp_server} {ev : Event} {eff : List ServerEffect}
    (h : srv.handle ev = .ok (srv1, eff)) (xml : String)
    (hx : (table_find xml srv.sessions).isSome = true) :
    (table_find xml srv1.sessions).isSome = true := by
  cases ev with
  | read connection buffer =>
    simp only [tcp_server.handle, tcp_server.server_handle_read] at h
    split_ifs at h with h1 h2
    · simp only [tcp_server.create_received] at h
      split at h
      · cases h
      · have h3 := congrArg (fun r => Except.map Prod.fst r) h
        simp only [Except.map] at h3
        injection h3 with h3
        rw [← h3, create_named_sessions]
        exact hx
    · simp only [tcp_server.join_received] at h
      split at h
      · cases h
      · have h3 := congrArg (fun r => Except.map Prod.fst r) h
        simp only [Except.map] at h3
        injection h3 with h3
        rw [← h3]
        exact join_named_sessions srv connection _ _ xml hx
    · injection h with h
      injection h with hs _
      subst hs
      exact hx
  | thread pt =>
    simp only [tcp_server.handle, tcp_server.run_thread] at h
    split at h
    · injection h with h
      injection h with hs _
      subst hs
      exact hx
    · simp only [tcp_server.create_thread] at h
      split at h
      · cases h
      · split at h
        · injection h with h
          injection h with hs _
          subst hs
          exact table_find_insert_isSome _ _ _ _ hx
        · injection h with h
          injection h with hs _
          subst hs
          exact hx
  | session_read xmlfile connection buffer =>
    simp only [tcp_server.handle, tcp_server.session_read] at h
    split at h
    · injection h with h
      injection h with hs _
      subst hs
      exact hx
    · split at h
      · cases h
      · injection h with h
        injection h with hs _
        subst hs
        show (table_find xml (table_update _ _ srv.sessions)).isSome = true
        rw [table_find_update_isSome]
        exact hx

/-! ## Facts about decimal text -/

theorem digitChar_toNat (k : Nat) (h : k < 10) : (Nat.digitChar k).toNat = 48 + k := by
  interval_cases k <;> rfl

theorem digits_value_toDigitsCore :
    ∀ (fuel n : Nat) (ds : List Char), n < fuel →
      digits_value (Nat.toDigitsCore 10 fuel n ds) 0 = digits_value ds n
  | 0, n, ds, h => absurd h (Nat.not_lt_zero n)
  | fuel + 1, n, ds, h => by
    have hd : (Nat.digitChar (n % 10)).toNat = 48 + n % 10 :=
      digitChar_toNat (n % 10) (Nat.mod_lt n (by decide))
    have hstep : ∀ acc, digits_value (Nat.digitChar (n % 10) :: ds) acc =
        digits_value ds (acc * 10 + n % 10) := by
      intro acc
      have hr : 48 ≤ (Nat.digitChar (n % 10)).toNat ∧ (Nat.digitChar (n % 10)).toNat ≤ 57 := by
        rw [hd]
        have := Nat.mod_lt n (show 0 < 10 by decide)
        omega
      conv_lhs => unfold digits_value
      rw [if_pos hr, hd]
      congr 1
      omega
    unfold Nat.toDigitsCore
    by_cases h0 : n / 10 = 0
    · simp only [h0, if_true]
      rw [hstep 0]
      congr 1
      have := Nat.div_add_mod n 10
      omega
    · simp only [h0, if_false]
      rw [digits_value_toDigitsCore fuel (n / 10) _ (by omega), hstep]
      congr 1
      have := Nat.div_add_mod n 10
      omega

/-- Reading back the decimal text of a number gives the number. -/
theorem digits_value_toString (n : Nat) : digits_value (toString n).data 0 = n := by
  show digits_value (Nat.toDigitsCore 10 (n + 1) n []) 0 = n
  rw [digits_value_toDigitsCore (n + 1) n [] (Nat.lt_succ_self n)]
  rfl

theorem toString_nat_injective {a b : Nat} (h : toString a = toString b) : a = b := by
  rw [← digits_value_toString a, ← digits_value_toString b, h]

/-! ## Facts for the counter, the written document and the catalog paths -/

theorem handles_insert_length {c : tcp_connection} :
    ∀ {l : List tcp_connection}, c ∉ l → (handles_insert c l).length = l.length + 1
  | [], _ => rfl
  | d :: t, h => by
    have hd : c ≠ d := fun hEq => h (by rw [hEq]; exact List.mem_cons_self _ _)
    have ht : c ∉ t := fun hm => h (List.mem_cons_of_mem _ hm)
    unfold handles_insert
    split_ifs with h1
    · rfl
    · rw [List.length_cons, handles_insert_length ht, List.length_cons]

/-- When every `add_user` is for a connection that is not subscribed and every
removal is for a connection that is, the counter stays equal to the number of
subscribers. -/
theorem counter_kept_when_event_fits (s : spreadsheet_session) (ev : SubscriberEvent)
    (hcount : s.user_count = s.connected_users.elems.length)
    (hfit : match ev with
      | .add_user c => c ∉ s.connected_users.elems
      | .leave c _ => c ∈ s.connected_users.elems
      | .receive_error c => c ∈ s.connected_users.elems
      | .send_error c => c ∈ s.connected_users.elems) :
    (s.subscriber_event ev).user_count = (s.subscriber_event ev).connected_users.elems.length := by
  have hremove : ∀ c, c ∈ s.connected_users.elems →
      s.user_count - 1 = ((handles_erase c s.connected_users.elems).length : Int) := by
    intro c hc
    have := handles_erase_length hc
    rw [hcount]
    omega
  cases ev with
  | add_user c =>
    show s.user_count + 1 = ((handles_insert c s.connected_users.elems).length : Int)
    rw [handles_insert_length hfit, hcount]
    push_cast
    rfl
  | leave c file_name =>
    obtain ⟨s1, eff, h, hu, hc, -⟩ := leave_result s c file_name
    simp only [spreadsheet_session.subscriber_event, h]
    rw [hc, hu]
    exact hremove c hfit
  | receive_error c =>
    have h := (show s.message_received c (.leave "") = some (s.receive_error c) from rfl)
    obtain ⟨s1, eff, h1, hu, hc, -⟩ := leave_result s c ""
    rw [h] at h1
    injection h1 with h1
    simp only [spreadsheet_session.subscriber_event, h1]
    rw [hc, hu]
    exact hremove c hfit
  | send_error c =>
    have h := (show s.message_received c (.leave "") = some (s.send_callback_error c) from rfl)
    obtain ⟨s1, eff, h1, hu, hc, -⟩ := leave_result s c ""
    rw [h] at h1
    injection h1 with h1
    simp only [spreadsheet_session.subscriber_event, h1]
    rw [hc, hu]
    exact hremove c hfit

theorem mem_entries_iff_find {k v : String} :
    ∀ {l : List (String × String)}, keys_ascending l →
      ((k, v) ∈ l ↔ entries_find k l = some v)
  | [], _ => by simp [entries_find]
  | (k', v') :: t, h => by
    have hc := List.pairwise_cons.mp h
    unfold entries_find
    split_ifs with h0
    · subst h0
      have hnone : entries_find k' t = none := entries_find_none_of_lt hc.1
      constructor
      · intro hm
        rcases List.mem_cons.mp hm with hEq | hm
        · injection hEq with _ hv
          rw [hv]
        · rw [(mem_entries_iff_find hc.2).mp hm] at hnone
          cases hnone
      · intro hEq
        injection hEq with hv
        rw [hv]
        exact List.mem_cons_self _ _
    · rw [List.mem_cons, ← mem_entries_iff_find hc.2]
      constructor
      · rintro (hEq | hm)
        · injection hEq with hk _
          exact absurd hk.symm h0
        · exact hm
      · exact Or.inr

theorem entry_names_nodup {l : List (String × String)} (h : keys_ascending l) :
    (l.map Prod.fst).Nodup := by
  unfold List.Nodup
  rw [List.pairwise_map]
  refine List.Pairwise.imp ?_ h
  intro a b hlt hEq
  rw [hEq] at hlt
  exact key_lt_irrefl _ hlt

theorem table_find_mem {β : Type} {k : String} {v : β} :
    ∀ {l : List (String × β)}, table_find k l = some v → (k, v) ∈ l
  | [], h => by simp [table_find] at h
  | (k', v') :: t, h => by
    unfold table_find at h
    split_ifs at h with h0
    · injection h with hv
      rw [← h0, ← hv]
      exact List.mem_cons_self _ _
    · exact List.mem_cons_of_mem _ (table_find_mem h)

theorem xml_path_injective {a b : Nat} (h : xml_path a = xml_path b) : a = b := by
  unfold xml_path at h
  have h1 := congrArg String.data h
  simp only [String.data_append] at h1
  have h2 := List.append_cancel_right h1
  have h3 := List.append_cancel_left h2
  exact toString_nat_injective (String.ext h3)

theorem create_named_paths (srv : tcp_server) (connection : tcp_connection)
    (name password : String) (h : paths_in_order srv.files) :
    paths_in_order (srv.create_named connection name password).1.files := by
  unfold tcp_server.create_named
  cases hf : table_find name srv.files with
  | some e => exact h
  | none =>
    show paths_in_order (table_insert name (_, password) srv.files)
    unfold table_insert
    rw [hf]
    unfold paths_in_order at h ⊢
    rw [List.map_append, List.length_append, List.length_singleton, List.range_succ,
      List.map_append, h]
    rfl

theorem creates_paths :
    ∀ (cmds : List (tcp_connection × String × String)) (srv : tcp_server),
      paths_in_order srv.files → paths_in_order (srv.creates cmds).files
  | [], _, h => h
  | (connection, name, password) :: rest, srv, h =>
    creates_paths rest _ (create_named_paths srv connection name password h)

theorem paths_nodup {files : List (String × (String × String))} (h : paths_in_order files) :
    (files.map (fun e => e.2.1)).Nodup := by
  rw [h]
  exact List.Nodup.map (fun a b hab => Nat.succ_injective (xml_path_injective hab))
    (List.nodup_range _)

theorem next_path_fresh {files : List (String × (String × String))} (h : paths_in_order files) :
    ∀ e ∈ files, e.2.1 ≠ xml_path (files.length + 1) := by
  intro e he hEq
  have hm : e.2.1 ∈ files.map (fun e => e.2.1) := List.mem_map.mpr ⟨e, he, rfl⟩
  rw [h, List.mem_map] at hm
  obtain ⟨i, hi, hp⟩ := hm
  rw [hEq] at hp
  have := xml_path_injective hp
  rw [List.mem_range] at hi
  omega

theorem send_update_all_updates (s : spreadsheet_session) (connection : tcp_connection)
    (cell_name length cell_data : String) :
    (s.send_update connection cell_name length cell_data).filter is_update =
      s.send_update connection cell_name length cell_data := by
  rw [List.filter_eq_self]
  intro e he
  obtain ⟨u, _, _, rfl⟩ := (spreadsheet_session.send_update_mem s connection cell_name length
    cell_data e).mp he
  rfl

/-! ## The undo lookup when no CHANGE carries empty content -/

theorem find_revert (m : string_map) (e : String × String) (k : String) :
    (revert m e).find k =
      if k = e.1 then (if e.2 = "" then none else some e.2) else m.find k := by
  unfold revert
  by_cases hk : k = e.1
  · subst hk
    rw [if_pos rfl]
    split_ifs with he
    · exact string_map.find_erase_self m _
    · exact string_map.find_assign_self m _ _
  · rw [if_neg hk]
    split_ifs with he
    · exact string_map.find_erase_ne m hk
    · exact string_map.find_assign_ne m e.2 hk

theorem lookup_safe_congr (log : List (String × String)) :
    ∀ m1 m2 : string_map, (∀ k, m1.find k = m2.find k) → lookup_safe log m1 → lookup_safe log m2 := by
  induction log with
  | nil => intro _ _ _ _; trivial
  | cons e t ih =>
    intro m1 m2 h hs
    refine ⟨fun he => ?_, ih (revert m1 e) (revert m2 e) (fun k => ?_) hs.2⟩
    · rw [← h e.1]
      exact hs.1 he
    · rw [find_revert, find_revert, h k]

theorem no_empty_content_revert {m : string_map} (e : String × String)
    (h : no_empty_content m) : no_empty_content (revert m e) := by
  intro k hk
  rw [find_revert] at hk
  split_ifs at hk with h1 h2
  · injection hk with hk
    exact h2 hk
  · exact h k hk

/-- With no empty content in the store and a safe log, a command that is not a
CHANGE with empty content is always handled, and both properties hold again
afterwards. -/
theorem step_lookup_safe (s : spreadsheet_session) (c : tcp_connection) (cmd : Command)
    (hcells : no_empty_content s.used_cells) (hlog : lookup_safe s.changes s.used_cells)
    (hcmd : cmd.keeps_content) :
    ∃ (s1 : spreadsheet_session) (eff : List Effect),
      s.message_received c cmd = some (s1, eff) ∧
      no_empty_content s1.used_cells ∧ lookup_safe s1.changes s1.used_cells := by
  cases cmd with
  | change file_name version cellname length content =>
    by_cases hv : version = s.ss_version
    · subst hv
      obtain ⟨s1, h1, hx, ho, hl, -⟩ :=
        spreadsheet_session.change_step s c file_name cellname length content
      have hc : content ≠ "" := hcmd
      refine ⟨s1, _, h1, ?_, ?_⟩
      · intro k hk
        by_cases hkx : k = cellname
        · subst hkx
          rw [hx] at hk
          injection hk with hk
          exact hc hk
        · rw [ho k hkx] at hk
          exact hcells k hk
      · rw [hl]
        refine ⟨fun _ => by rw [hx]; exact Option.some_ne_none _, ?_⟩
        refine lookup_safe_congr s.changes s.used_cells _ (fun k => ?_) hlog
        rw [find_revert]
        by_cases hkx : k = cellname
        · subst hkx
          simp only [if_true]
          cases hf : s.used_cells.find k with
          | none => simp [string_map.content, hf]
          | some v =>
            have hv : v ≠ "" := fun hv => hcells k (by rw [hf, hv])
            simp [string_map.content, hf, hv]
        · simp only [hkx, if_false]
          exact (ho k hkx).symm
    · exact ⟨s, _, spreadsheet_session.change_stale_result s c file_name cellname length
        content version hv, hcells, hlog⟩
  | undo file_name version =>
    by_cases hv : version = s.ss_version
    · subst hv
      cases hch : s.changes with
      | nil =>
        refine ⟨s, _, spreadsheet_session.undo_end_result s c file_name hch, hcells, ?_⟩
        rw [hch]
        trivial
      | cons e rest =>
        obtain ⟨cellname, contents⟩ := e
        rw [hch] at hlog
        exact ⟨_, _, spreadsheet_session.undo_accepted_result s c file_name cellname contents
          rest hch hlog.1, no_empty_content_revert _ hcells, hlog.2⟩
    · exact ⟨s, _, spreadsheet_session.undo_stale_result s c file_name version hv, hcells, hlog⟩
  | save file_name =>
    exact ⟨{ s with changes := [] }, _, rfl, hcells, trivial⟩
  | leave file_name =>
    obtain ⟨s1, eff, h, -, -, hc, -, hyes, hno⟩ := leave_result s c file_name
    refine ⟨s1, eff, h, by rw [hc]; exact hcells, ?_⟩
    by_cases hcond : s.user_count - 1 = 0 ∧ s.changes ≠ []
    · rw [(hyes hcond).1]
      trivial
    · rw [(hno hcond).1, hc]
      exact hlog
  | unknown => exact ⟨s, _, rfl, hcells, hlog⟩

theorem trace_lookup_safe :
    ∀ (cmds : List (tcp_connection × Command)) (saved : string_map) (s : spreadsheet_session),
      no_empty_content s.used_cells → lookup_safe s.changes s.used_cells →
      (∀ p ∈ cmds, p.2.keeps_content) →
      (trace saved s cmds).length = cmds.length ∧
      ∀ r ∈ trace saved s cmds,
        no_empty_content r.state.used_cells ∧ lookup_safe r.state.changes r.state.used_cells
  | [], _, _, _, _, _ => ⟨rfl, fun r hr => by simp [trace_nil] at hr⟩
  | (c, cmd) :: rest, saved, s, hcells, hlog, hcmds => by
    obtain ⟨s1, eff, h, hc1, hl1⟩ := step_lookup_safe s c cmd hcells hlog
      (hcmds (c, cmd) (List.mem_cons_self _ _))
    obtain ⟨ih1, ih2⟩ := trace_lookup_safe rest
      (if eff.any is_write = true then s1.used_cells else saved) s1 hc1 hl1
      (fun p hp => hcmds p (List.mem_cons_of_mem _ hp))
    rw [trace_cons_some rest h]
    refine ⟨by rw [List.length_cons, List.length_cons, ih1], ?_⟩
    intro r hr
    rcases List.mem_cons.mp hr with rfl | hr
    · exact ⟨hc1, hl1⟩
    · exact ih2 r hr

theorem entries_find_insert_cases (k k2 v : String) :
    ∀ l : List (String × String),
      entries_find k2 (entries_insert k v l) = entries_find k2 l ∨
      entries_find k2 (entries_insert k v l) = some v
  | [] => by
    by_cases h : k = k2
    · exact Or.inr (by simp [entries_insert, entries_find, h])
    · exact Or.inl (by simp [entries_insert, entries_find, h])
  | (k', v') :: t => by
    unfold entries_insert
    split_ifs with h1 h2
    · by_cases h : k = k2
      · exact Or.inr (by conv_lhs => unfold entries_find
                         rw [if_pos h])
      · exact Or.inl (by conv_lhs => unfold entries_find
                         rw [if_neg h])
    · exact Or.inl rfl
    · by_cases h : k' = k2
      · exact Or.inl (by conv_lhs => unfold entries_find
                         conv_rhs => unfold entries_find
                         rw [if_pos h, if_pos h])
      · rcases entries_find_insert_cases k k2 v t with ih | ih
        · exact Or.inl (by conv_lhs => unfold entries_find
                           conv_rhs => unfold entries_find
                           rw [if_neg h, if_neg h, ih])
        · exact Or.inr (by conv_lhs => unfold entries_find
                           rw [if_neg h, ih])

theorem open_file_no_empty_content :
    ∀ (pt : Document) (s : spreadsheet_session), no_empty_content s.used_cells →
      no_empty_content (s.open_file pt).used_cells
  | [], _, h => h
  | child :: rest, s, h => by
    by_cases hp : child.name ≠ "" ∧ child.contents ≠ ""
    · have hstep : no_empty_content (s.used_cells.insert child.name child.contents) := by
        intro k hk
        have hk2 : entries_find k
            (entries_insert child.name child.contents s.used_cells.entries) = some "" := hk
        rcases entries_find_insert_cases child.name k child.contents s.used_cells.entries
          with h1 | h1
        · rw [h1] at hk2
          exact h k hk2
        · rw [h1] at hk2
          injection hk2 with hk2
          exact hp.2 hk2
      have := open_file_no_empty_content rest
        { s with used_cells := s.used_cells.insert child.name child.contents } hstep
      simpa [spreadsheet_session.open_file, List.foldl_cons, hp] using this
    · have := open_file_no_empty_content rest s h
      simpa [spreadsheet_session.open_file, List.foldl_cons, hp] using this

/-- In a session that was just opened, as long as no CHANGE carries empty
content, every command is handled and the lookup before the erase never misses:
whenever the top entry of the undo log has empty prior content, its cell is in
the cell store. -/
theorem lookup_never_misses_without_empty_change (file xml_file : String) (pt : Document)
    (user : tcp_connection) (cmds : List (tcp_connection × Command))
    (hcmds : ∀ p ∈ cmds, p.2.keeps_content) :
    (trace (spreadsheet_session.create file xml_file pt user).1.used_cells
      (spreadsheet_session.create file xml_file pt user).1 cmds).length = cmds.length ∧
    ∀ r ∈ trace (spreadsheet_session.create file xml_file pt user).1.used_cells
        (spreadsheet_session.create file xml_file pt user).1 cmds,
      ∀ cellname rest, r.state.changes = (cellname, "") :: rest →
        r.state.used_cells.find cellname ≠ none := by
  have hcells : no_empty_content (spreadsheet_session.create file xml_file pt user).1.used_cells :=
    open_file_no_empty_content pt (spreadsheet_session.blank file xml_file)
      (fun k hk => by cases hk)
  have hlog : lookup_safe (spreadsheet_session.create file xml_file pt user).1.changes
      (spreadsheet_session.create file xml_file pt user).1.used_cells := trivial
  obtain ⟨h1, h2⟩ := trace_lookup_safe cmds _ _ hcells hlog hcmds
  refine ⟨h1, ?_⟩
  intro r hr cellname rest hch
  have := (h2 r hr).2
  rw [hch] at this
  exact this.1 rfl

/-! ## The claims -/

/-- C1: a CHANGE whose version equals the session version is handled, and
afterwards the cell store maps the cell to the submitted content, every other
cell is as before, the undo log is the old log with the one entry (cell, prior
content) on top, prior content being empty for an absent cell, the version is
one more, and the subscriber set is the same.  A following accepted edit of the
same cell pushes an entry of its own on top of the first. -/
theorem change_accepted (s : spreadsheet_session) (connection : tcp_connection)
    (file_name cellname length content : String) :
    ∃ (s1 : spreadsheet_session) (eff : List Effect),
      s.message_received connection (.change file_name s.ss_version cellname length content) =
        some (s1, eff) ∧
      s1.used_cells.find cellname = some content ∧
      (∀ other, other ≠ cellname → s1.used_cells.find other = s.used_cells.find other) ∧
      s1.changes = (cellname, s.used_cells.content cellname) :: s.changes ∧
      s1.ss_version = s.ss_version + 1 ∧
      s1.connected_users = s.connected_users ∧
      ∀ (connection2 : tcp_connection) (file_name2 length2 content2 : String),
        ∃ (s2 : spreadsheet_session) (eff2 : List Effect),
          s1.message_received connection2
              (.change file_name2 s1.ss_version cellname length2 content2) = some (s2, eff2) ∧
          s2.used_cells.find cellname = some content2 ∧
          s2.changes =
            (cellname, content) :: (cellname, s.used_cells.content cellname) :: s.changes ∧
          s2.ss_version = s.ss_version + 2 := by
  obtain ⟨s1, h1, hx, ho, hl, hv, hu, -⟩ :=
    spreadsheet_session.change_step s connection file_name cellname length content
  refine ⟨s1, _, h1, hx, ho, hl, hv, hu, ?_⟩
  intro connection2 file_name2 length2 content2
  obtain ⟨s2, h2, hx2, -, hl2, hv2, -⟩ :=
    spreadsheet_session.change_step s1 connection2 file_name2 cellname length2 content2
  refine ⟨s2, _, h2, hx2, ?_, ?_⟩
  · rw [hl2, hl]
    simp [string_map.content, hx]
  · rw [hv2, hv]
    ring

/-- C2: a CHANGE whose version differs from the session version leaves the whole
session state (cell store, undo log, version, subscriber set) as it is, and the
only effect is one CHANGE WAIT to the submitter carrying the session version. -/
theorem change_stale_version (s : spreadsheet_session) (connection : tcp_connection)
    (file_name cellname length content : String) (version : Int)
    (h : version ≠ s.ss_version) :
    s.message_received connection (.change file_name version cellname length content) =
      some (s, [Effect.send connection (Message.change_wait file_name s.ss_version)]) :=
  spreadsheet_session.change_stale_result s connection file_name cellname length content version h

/-- Witness for C2: the scenario of the specification, a CHANGE with version 0
against the session at version 3. -/
theorem change_stale_version_witness :
    (0 : Int) ≠ budget_v3.ss_version ∧
    budget_v3.message_received 2 (.change "budget" 0 "C3" "1" "7") =
      some (budget_v3, [Effect.send 2 (Message.change_wait "budget" 3)]) :=
  ⟨by decide, change_stale_version budget_v3 2 "budget" "C3" "1" "7" 0 (by decide)⟩

/-- C3: an accepted CHANGE, and an accepted UNDO, sends an UPDATE to every
subscriber other than the submitter and to nobody else, sends the submitter
exactly one OK reply and nothing else, and the UPDATEs and the OK reply all
carry the version after the increment; the UPDATE names the changed cell and
its new content. -/
theorem update_broadcast (s : spreadsheet_session) (connection : tcp_connection) :
    (∀ file_name cellname length content : String,
      ∃ (s1 : spreadsheet_session) (eff : List Effect),
        s.message_received connection (.change file_name s.ss_version cellname length content) =
          some (s1, eff) ∧
        s1.ss_version = s.ss_version + 1 ∧
        s1.used_cells.content cellname = content ∧
        (∀ u m, Effect.send u m ∈ eff ↔
          (u ∈ s.connected_users.elems ∧ u ≠ connection ∧
            m = Message.update s.filename s1.ss_version cellname length content) ∨
          (u = connection ∧ m = Message.change_ok file_name s1.ss_version)) ∧
        (eff.filter (is_ok_reply connection)).length = 1 ∧
        eff.any is_write = false) ∧
    (∀ (file_name cellname contents : String) (rest : List (String × String)),
      s.changes = (cellname, contents) :: rest →
      (contents = "" → s.used_cells.find cellname ≠ none) →
      ∃ (s1 : spreadsheet_session) (eff : List Effect),
        s.message_received connection (.undo file_name s.ss_version) = some (s1, eff) ∧
        s1.ss_version = s.ss_version + 1 ∧
        s1.used_cells.content cellname = contents ∧
        (∀ u m, Effect.send u m ∈ eff ↔
          (u ∈ s.connected_users.elems ∧ u ≠ connection ∧
            m = Message.update s.filename s1.ss_version cellname
              (toString contents.length) contents) ∨
          (u = connection ∧
            m = Message.undo_ok file_name s1.ss_version cellname
              (toString contents.length) contents)) ∧
        (eff.filter (is_ok_reply connection)).length = 1 ∧
        eff.any is_write = false) := by
  constructor
  · intro file_name cellname length content
    obtain ⟨s1, h1, hx, -, -, hv, hu, hf, -⟩ :=
      spreadsheet_session.change_step s connection file_name cellname length content
    have hb := broadcast_then_reply s1 connection cellname length content
      (Message.change_ok file_name (s.ss_version + 1)) (by simp [is_ok_reply])
    rw [hu, hf] at hb
    refine ⟨s1, _, h1, hv, ?_, ?_, hb.2, ?_⟩
    · simp [string_map.content, hx]
    · rw [hv]
      rw [hv] at hb
      exact hb.1
    · rw [List.any_append, spreadsheet_session.send_update_no_write]
      simp [is_write]
  · intro file_name cellname contents rest hlog hfind
    have h1 := spreadsheet_session.undo_accepted_result s connection file_name cellname
      contents rest hlog hfind
    have hb := broadcast_then_reply
      { s with
        used_cells := revert s.used_cells (cellname, contents)
        changes := rest
        ss_version := s.ss_version + 1 }
      connection cellname (toString contents.length) contents
      (Message.undo_ok file_name (s.ss_version + 1) cellname (toString contents.length) contents)
      (by simp [is_ok_reply])
    refine ⟨_, _, h1, rfl, ?_, hb.1, hb.2, ?_⟩
    · show (revert s.used_cells (cellname, contents)).content cellname = contents
      unfold revert
      split_ifs with hc
      · simp only at hc
        simp [string_map.content, string_map.find_erase_self, hc]
      · simp [string_map.content, string_map.find_assign_self]
    · rw [List.any_append, spreadsheet_session.send_update_no_write]
      simp [is_write]

/-- Witness for C3: connection 1 undoes the last of `three_edits` in the session
that connections 1 and 2 share; connection 2 gets the UPDATE, connection 1 the
UNDO OK, both with version 4. -/
theorem update_broadcast_witness :
    ∃ (s1 : spreadsheet_session) (eff : List Effect),
      budget_v3.message_received 1 (.undo "budget" budget_v3.ss_version) = some (s1, eff) ∧
      s1.ss_version = budget_v3.ss_version + 1 ∧
      s1.used_cells.content "A1" = "5" ∧
      (∀ u m, Effect.send u m ∈ eff ↔
        (u ∈ budget_v3.connected_users.elems ∧ u ≠ 1 ∧
          m = Message.update budget_v3.filename s1.ss_version "A1" (toString "5".length) "5") ∨
        (u = 1 ∧ m = Message.undo_ok "budget" s1.ss_version "A1" (toString "5".length) "5")) ∧
      (eff.filter (is_ok_reply 1)).length = 1 ∧
      eff.any is_write = false :=
  (update_broadcast budget_v3 1).2 "budget" "A1" "5" [("B2", ""), ("A1", "")]
    (by decide) (by decide)

/-- C4, the code at the failing input: in the session reached by two CHANGEs of
A1 with empty content and one UNDO, the top of the undo log is ("A1", "") while
A1 is not in the cell store; the UNDO with the current version then applies
`erase` to the `end()` iterator, so the handler has no defined result: no entry
is popped, no version is produced and no UNDO OK is sent. -/
theorem undo_erases_absent_cell :
    (trace budget.used_cells budget cleared_twice).length = 3 ∧
    budget_cleared.changes = [("A1", "")] ∧
    budget_cleared.ss_version = 3 ∧
    budget_cleared.used_cells.find "A1" = none ∧
    budget_cleared.message_received 1 (.undo "budget" 3) = none := by
  decide

/-- C5: an UNDO whose version equals the session version, in a session whose
undo log is empty, leaves the whole session state as it is, and its only effect
is one UNDO END to the submitter carrying the session version; no UPDATE is
sent. -/
theorem undo_at_empty_log (s : spreadsheet_session) (connection : tcp_connection)
    (file_name : String) (h : s.changes = []) :
    s.message_received connection (.undo file_name s.ss_version) =
      some (s, [Effect.send connection (Message.undo_end file_name s.ss_version)]) :=
  spreadsheet_session.undo_end_result s connection file_name h

/-- Witness for C5: an UNDO in the session that was just opened. -/
theorem undo_at_empty_log_witness :
    budget.changes = [] ∧
    budget.message_received 1 (.undo "budget" budget.ss_version) =
      some (budget, [Effect.send 1 (Message.undo_end "budget" 0)]) :=
  ⟨by decide, undo_at_empty_log budget 1 "budget" (by decide)⟩

/-- C6: an UNDO whose version differs from the session version, whatever the
undo log holds, leaves the whole session state as it is, and its only effect is
one UNDO WAIT to the submitter carrying the session version; no UPDATE is
sent. -/
theorem undo_stale_version (s : spreadsheet_session) (connection : tcp_connection)
    (file_name : String) (version : Int) (h : version ≠ s.ss_version) :
    s.message_received connection (.undo file_name version) =
      some (s, [Effect.send connection (Message.undo_wait file_name s.ss_version)]) :=
  spreadsheet_session.undo_stale_result s connection file_name version h

/-- Witness for C6: an UNDO with version 1 against the session at version 3,
whose undo log holds three entries. -/
theorem undo_stale_version_witness :
    (1 : Int) ≠ budget_v3.ss_version ∧ budget_v3.changes.length = 3 ∧
    budget_v3.message_received 2 (.undo "budget" 1) =
      some (budget_v3, [Effect.send 2 (Message.undo_wait "budget" 3)]) :=
  ⟨by decide, by decide, undo_stale_version budget_v3 2 "budget" 1 (by decide)⟩

/-- C7: a new session has version 0, and along the handling of any sequence of
commands the version never decreases from one step to the next (it stays or
grows by one), and the last version is the first one plus the number of
commands answered with CHANGE OK or UNDO OK.  The handling covers the whole
sequence unless it arrives at an UNDO that erases a cell which is not in the
store, the one command without a defined result. -/
theorem version_counts_accepted :
    (∀ (file xml_file : String) (pt : Document) (user : tcp_connection),
      (spreadsheet_session.create file xml_file pt user).1.ss_version = 0) ∧
    ∀ (saved : string_map) (s : spreadsheet_session) (cmds : List (tcp_connection × Command)),
      List.Chain (fun a b : Int => a ≤ b ∧ b ≤ a + 1) s.ss_version
        ((trace saved s cmds).map (fun r => r.state.ss_version)) ∧
      (final_state s (trace saved s cmds)).ss_version =
        s.ss_version + ((trace saved s cmds).filter Step.answered_ok).length ∧
      ((trace saved s cmds).length = cmds.length ∨
        ∃ (c : tcp_connection) (file_name cellname : String) (rest : List (String × String)),
          cmds.get? (trace saved s cmds).length =
            some (c, .undo file_name (final_state s (trace saved s cmds)).ss_version) ∧
          (final_state s (trace saved s cmds)).changes = (cellname, "") :: rest ∧
          (final_state s (trace saved s cmds)).used_cells.find cellname = none) := by
  refine ⟨fun _ _ _ _ => rfl, ?_⟩
  intro saved s cmds
  induction cmds generalizing saved s with
  | nil =>
    refine ⟨List.Chain.nil, ?_, Or.inl rfl⟩
    simp [trace_nil, final_state]
  | cons p rest ih =>
    obtain ⟨c, cmd⟩ := p
    cases hm : s.message_received c cmd with
    | none =>
      rw [trace_cons_none rest hm]
      refine ⟨List.Chain.nil, by simp [final_state], Or.inr ?_⟩
      obtain ⟨file_name, cellname, lrest, hcmd, hlog, hf⟩ :=
        (message_received_eq_none_iff s c cmd).mp hm
      subst hcmd
      exact ⟨c, file_name, cellname, lrest, rfl, hlog, hf⟩
    | some r =>
      obtain ⟨s1, e1⟩ := r
      rw [trace_cons_some rest hm]
      obtain ⟨ih1, ih2, ih3⟩ := ih (if e1.any is_write = true then s1.used_cells else saved) s1
      have hv := step_version hm
      refine ⟨?_, ?_, ?_⟩
      · rw [List.map_cons]
        refine List.Chain.cons ?_ ih1
        show s.ss_version ≤ s1.ss_version ∧ s1.ss_version ≤ s.ss_version + 1
        rw [hv]
        split_ifs <;> omega
      · show (final_state s1 _).ss_version = _
        rw [ih2, hv, List.filter_cons]
        by_cases hok : e1.any (is_ok_reply c) = true
        · have : Step.answered_ok
              ⟨c, cmd, s1, e1, if e1.any is_write = true then s1.used_cells else saved⟩ = true :=
            hok
          rw [if_pos this, if_pos hok, List.length_cons]
          push_cast
          ring
        · have : ¬ Step.answered_ok
              ⟨c, cmd, s1, e1, if e1.any is_write = true then s1.used_cells else saved⟩ = true :=
            hok
          rw [if_neg this, if_neg hok]
          ring
      · rcases ih3 with h | h
        · exact Or.inl (by rw [List.length_cons, List.length_cons, h])
        · refine Or.inr ?_
          rw [List.length_cons, List.get?_cons_succ]
          exact h

/-- C8: a new session and a session that was just saved have an empty undo
log, and in every state reached from a session with an empty undo log by any
sequence of handled commands, popping the whole undo log top first and
reverting each entry gives every cell the content it had in the cell store at
the last write of the file (the starting store when there was none), an absent
cell counting as empty. -/
theorem undo_log_replays_to_saved :
    (∀ (file xml_file : String) (pt : Document) (user : tcp_connection),
      (spreadsheet_session.create file xml_file pt user).1.changes = []) ∧
    (∀ s : spreadsheet_session, s.save_ss.1.changes = []) ∧
    ∀ (s0 : spreadsheet_session) (cmds : List (tcp_connection × Command)),
      s0.changes = [] →
      ∀ r ∈ trace s0.used_cells s0 cmds,
        ∀ k, (replay r.state.changes r.state.used_cells).content k = r.saved.content k := by
  refine ⟨fun _ _ _ _ => rfl, fun _ => rfl, ?_⟩
  intro s0 cmds h0
  apply trace_replays_to
  intro k
  rw [h0]
  rfl

/-- Witness for C8: the new session `budget` and the commands `edits_and_save`. -/
theorem undo_log_replays_to_saved_witness :
    budget.changes = [] ∧
    (trace budget.used_cells budget edits_and_save).length = 7 ∧
    ∀ r ∈ trace budget.used_cells budget edits_and_save,
      ∀ k, (replay r.state.changes r.state.used_cells).content k = r.saved.content k :=
  ⟨by decide, by decide, undo_log_replays_to_saved.2.2 budget edits_and_save (by decide)⟩

/-- C9: in a session where cell X is absent, an accepted CHANGE of X to any
content followed by an accepted UNDO leaves X absent, the cell store and the
undo log exactly as they were before the CHANGE, the version two higher, and
the UNDO is answered with UNDO OK carrying cell X, Length 0 and empty content
(the other subscribers get the matching UPDATE). -/
theorem change_then_undo (s : spreadsheet_session) (connection connection2 : tcp_connection)
    (file_name file_name2 cellname length content : String)
    (h : s.used_cells.find cellname = none) :
    ∃ (s1 s2 : spreadsheet_session) (eff1 : List Effect),
      s.message_received connection (.change file_name s.ss_version cellname length content) =
        some (s1, eff1) ∧
      s1.message_received connection2 (.undo file_name2 s1.ss_version) =
        some (s2,
          (s.connected_users.elems.filter (fun u => u ≠ connection2)).map
            (fun u => Effect.send u
              (Message.update s.filename (s.ss_version + 2) cellname "0" ""))
          ++ [Effect.send connection2
                (Message.undo_ok file_name2 (s.ss_version + 2) cellname "0" "")]) ∧
      s2.used_cells.find cellname = none ∧
      (∀ other, other ≠ cellname → s2.used_cells.find other = s.used_cells.find other) ∧
      s2.used_cells = s.used_cells ∧
      s2.changes = s.changes ∧
      s2.ss_version = s.ss_version + 2 ∧
      s2.connected_users = s.connected_users := by
  have h1 := spreadsheet_session.change_absent_result s connection file_name cellname length
    content h
  have hcells : revert (s.used_cells.insert cellname content) (cellname, "") = s.used_cells := by
    unfold revert
    rw [if_pos rfl]
    exact string_map.erase_insert content h
  have hver : s.ss_version + 1 + 1 = s.ss_version + 2 := by ring
  have h2 := spreadsheet_session.undo_accepted_result
    { s with
      used_cells := s.used_cells.insert cellname content
      changes := (cellname, "") :: s.changes
      ss_version := s.ss_version + 1 }
    connection2 file_name2 cellname "" s.changes rfl
    (fun _ => by
      show (s.used_cells.insert cellname content).find cellname ≠ none
      rw [string_map.find_insert_self content h]
      exact Option.some_ne_none _)
  simp only [hcells, hver] at h2
  refine ⟨_, _, _, h1, h2, h, fun _ _ => rfl, rfl, rfl, rfl, rfl⟩

/-- Witness for C9: cell A1, content "5", in the new session at version 0. -/
theorem change_then_undo_witness :
    budget.used_cells.find "A1" = none ∧
    ∃ (s1 s2 : spreadsheet_session) (eff1 : List Effect),
      budget.message_received 1 (.change "budget" budget.ss_version "A1" "1" "5") =
        some (s1, eff1) ∧
      s1.message_received 1 (.undo "budget" s1.ss_version) =
        some (s2,
          (budget.connected_users.elems.filter (fun u => u ≠ 1)).map
            (fun u => Effect.send u
              (Message.update budget.filename (budget.ss_version + 2) "A1" "0" ""))
          ++ [Effect.send 1 (Message.undo_ok "budget" (budget.ss_version + 2) "A1" "0" "")]) ∧
      s2.used_cells.find "A1" = none ∧
      (∀ other, other ≠ "A1" → s2.used_cells.find other = budget.used_cells.find other) ∧
      s2.used_cells = budget.used_cells ∧
      s2.changes = budget.changes ∧
      s2.ss_version = budget.ss_version + 2 ∧
      s2.connected_users = budget.connected_users :=
  ⟨by decide, change_then_undo budget 1 1 "budget" "budget" "A1" "1" "5" (by decide)⟩

/-- C10 as stated fails: after an accepted CHANGE of A1 to the empty content,
the cell store holds A1 with empty content, `save_ss` writes a cell entry for
it, and loading that document skips the entry, so the loaded cell store has no
A1 and differs from the cell store that was saved. -/
theorem save_reload_drops_empty_cell :
    (trace budget.used_cells budget [(1, .change "budget" 0 "A1" "0" "")]).length = 1 ∧
    budget_blanked.used_cells.find "A1" = some "" ∧
    budget_blanked.save_ss.2 = [Effect.write_xml "xml1.xml" [⟨"A1", ""⟩]] ∧
    ((spreadsheet_session.blank "budget" "xml1.xml").open_file
      [⟨"A1", ""⟩]).used_cells.find "A1" = none ∧
    ((spreadsheet_session.blank "budget" "xml1.xml").open_file
      budget_blanked.property_tree).used_cells ≠ budget_blanked.used_cells := by
  decide

/-- C10, amended: `save_ss` writes one cell entry per cell of the store, keeps
the store and leaves the undo log empty; loading the written document into a
new session yields exactly the cells of the saved store whose id and content
are both non-empty, each with its content, so the loaded store is identical to
the saved one whenever no cell has an empty id or empty content. -/
theorem save_then_reload (s : spreadsheet_session) (file xml_file : String) :
    s.save_ss.2 = [Effect.write_xml s.xml_name s.property_tree] ∧
    s.property_tree = s.used_cells.entries.map (fun it => ⟨it.1, it.2⟩) ∧
    s.save_ss.1.used_cells = s.used_cells ∧
    s.save_ss.1.changes = [] ∧
    ((spreadsheet_session.blank file xml_file).open_file s.property_tree).used_cells.entries =
      s.used_cells.entries.filter (fun e => decide (e.1 ≠ "" ∧ e.2 ≠ "")) ∧
    ((∀ e ∈ s.used_cells.entries, e.1 ≠ "" ∧ e.2 ≠ "") →
      ((spreadsheet_session.blank file xml_file).open_file s.property_tree).used_cells =
        s.used_cells) := by
  have hload :
      ((spreadsheet_session.blank file xml_file).open_file s.property_tree).used_cells.entries =
        s.used_cells.entries.filter (fun e => decide (e.1 ≠ "" ∧ e.2 ≠ "")) := by
    rw [property_tree_eq]
    have := load_entries s.used_cells.entries string_map.empty s.used_cells.ascending
      (fun a ha => by simp [string_map.empty] at ha)
    simpa [spreadsheet_session.open_file, spreadsheet_session.blank, string_map.empty] using this
  refine ⟨rfl, property_tree_eq s, rfl, rfl, hload, ?_⟩
  intro hne
  apply string_map.ext_entries
  rw [hload, List.filter_eq_self]
  intro e he
  simpa using hne e he

/-- Witness for C10: the session after `three_edits`, whose cells A1 and B2 are
both non-empty, saved and loaded again. -/
theorem save_then_reload_witness :
    (∀ e ∈ budget_v3.used_cells.entries, e.1 ≠ "" ∧ e.2 ≠ "") ∧
    budget_v3.save_ss.2 = [Effect.write_xml "xml1.xml" [⟨"A1", "6"⟩, ⟨"B2", "42"⟩]] ∧
    ((spreadsheet_session.blank "budget" "xml1.xml").open_file
      budget_v3.property_tree).used_cells = budget_v3.used_cells :=
  ⟨by decide, by decide,
    (save_then_reload budget_v3 "budget" "xml1.xml").2.2.2.2.2 (by decide)⟩

/-- C11, the code at the failing input: LEAVE follows the counter `user_count`,
not the subscriber set.  After connection 2 left the session `budget_v3`, a
second LEAVE of connection 2 removes nobody, connection 1 stays subscribed, and
yet the counter arrives at 0 and the file is written.  When connection 1, the
last subscriber, then leaves with a change on the stack, the subscriber set
becomes empty, the counter goes to -1 and nothing is written. -/
theorem leave_save_follows_counter :
    budget_v3_left.connected_users.elems = [1] ∧ budget_v3_left.user_count = 1 ∧
    budget_v3_left.changes.length = 3 ∧
    (budget_v3_left.message_received 2 (.leave "budget")).map
        (fun r => (r.1.connected_users.elems, r.1.user_count, r.2)) =
      some ([1], 0, [Effect.write_xml "xml1.xml" [⟨"A1", "6"⟩, ⟨"B2", "42"⟩]]) ∧
    budget_v3_drifted.connected_users.elems = [1] ∧ budget_v3_drifted.user_count = 0 ∧
    budget_v3_drifted.changes = [("C3", "")] ∧
    (budget_v3_drifted.message_received 1 (.leave "budget")).map
        (fun r => (r.1.connected_users.elems, r.1.user_count, r.1.changes, r.2)) =
      some ([], -1, [("C3", "")], []) := by
  decide

/-- C12, the code at the failing input: connection 1 joins "budget", makes one
edit and leaves.  The subscriber set of the session is then empty and the file
was written, but the session is still registered under "xml1.xml", at version
1.  When connection 2 joins afterwards it is added to that same session and
its JOIN OK carries version 1, not 0. -/
theorem emptied_session_stays_registered :
    (budget_server.run last_leaves).map
        (fun r => r.1.sessions.map
          (fun p => (p.1, p.2.connected_users.elems, p.2.user_count, p.2.ss_version))) =
      .ok [("xml1.xml", [], 0, 1)] ∧
    (budget_server.run (last_leaves ++ [join_budget 2])).map
        (fun r => (r.1.sessions.map (fun p => (p.1, p.2.connected_users.elems, p.2.ss_version)),
          r.1.threads)) =
      .ok ([("xml1.xml", [2], 1)], []) ∧
    (budget_server.run (last_leaves ++ [join_budget 2])).map (fun r => r.2.getLast?) =
      .ok (some
        (ServerEffect.session (Effect.send 2 (Message.join_ok "budget" 1 [⟨"A1", "5"⟩])))) :=
  ⟨by decide, by decide, by decide⟩

/-- C14: a JOIN is answered with JOIN FAIL exactly when the name is not in the
catalog or the stored password differs from the submitted one; the server state
is then unchanged and the JOIN FAIL to the sender is the only effect.
Otherwise the connection is added to the session registered for the file and
gets its JOIN OK, or, when no session is registered, a thread is started, and
that thread sends the JOIN OK once it has read the file. -/
theorem join_fail_iff (srv : tcp_server) (connection : tcp_connection) (n p : String) :
    ((srv.join_named connection n p).2.any is_join_fail = true ↔
      (table_find n srv.files = none ∨
        ∃ xml pw, table_find n srv.files = some (xml, pw) ∧ pw ≠ p)) ∧
    (table_find n srv.files = none →
      srv.join_named connection n p =
        (srv, [ServerEffect.send connection (ServerMessage.join_fail_not_exist n)])) ∧
    (∀ xml pw, table_find n srv.files = some (xml, pw) → pw ≠ p →
      srv.join_named connection n p =
        (srv, [ServerEffect.send connection (ServerMessage.join_fail_password n)])) ∧
    (∀ xml, table_find n srv.files = some (xml, p) →
      (∀ session, table_find xml srv.sessions = some session →
        srv.join_named connection n p =
          ({ srv with sessions := table_update xml (session.add_user connection).1 srv.sessions },
            [ServerEffect.session (Effect.send connection
              (Message.join_ok session.filename session.ss_version session.property_tree))])) ∧
      (table_find xml srv.sessions = none →
        srv.join_named connection n p =
          ({ srv with threads := srv.threads ++ [(n, xml, connection)] }, [])) ∧
      (∀ (srv2 : tcp_server) (pt : Document),
        ∃ (srv3 : tcp_server) (s : spreadsheet_session),
          srv2.create_thread n xml connection (some pt) =
            .ok (srv3,
              [ServerEffect.session (Effect.write_xml xml s.property_tree),
               ServerEffect.session (Effect.send connection
                 (Message.join_ok n 0 s.property_tree))]))) := by
  have hnone : table_find n srv.files = none →
      srv.join_named connection n p =
        (srv, [ServerEffect.send connection (ServerMessage.join_fail_not_exist n)]) := by
    intro h
    simp only [tcp_server.join_named, h]
  have hpw : ∀ xml pw, table_find n srv.files = some (xml, pw) → pw ≠ p →
      srv.join_named connection n p =
        (srv, [ServerEffect.send connection (ServerMessage.join_fail_password n)]) := by
    intro xml pw h hne
    simp only [tcp_server.join_named, h, ne_eq, hne, not_false_eq_true, if_true]
  have hfound : ∀ xml session, table_find n srv.files = some (xml, p) →
      table_find xml srv.sessions = some session →
      srv.join_named connection n p =
        ({ srv with sessions := table_update xml (session.add_user connection).1 srv.sessions },
          [ServerEffect.session (Effect.send connection
            (Message.join_ok session.filename session.ss_version session.property_tree))]) := by
    intro xml session h hs
    simp only [tcp_server.join_named, h, hs, ne_eq, not_true_eq_false, if_false]
    rfl
  have hspawn : ∀ xml, table_find n srv.files = some (xml, p) →
      table_find xml srv.sessions = none →
      srv.join_named connection n p =
        ({ srv with threads := srv.threads ++ [(n, xml, connection)] }, []) := by
    intro xml h hs
    simp only [tcp_server.join_named, h, hs, ne_eq, not_true_eq_false, if_false]
  refine ⟨?_, hnone, hpw, ?_⟩
  · constructor
    · intro hany
      cases hf : table_find n srv.files with
      | none => exact Or.inl rfl
      | some e =>
        obtain ⟨xml, pw⟩ := e
        by_cases hne : pw = p
        · subst hne
          exfalso
          cases hs : table_find xml srv.sessions with
          | none =>
            rw [hspawn xml hf hs] at hany
            simp at hany
          | some session =>
            rw [hfound xml session hf hs] at hany
            simp [is_join_fail] at hany
        · exact Or.inr ⟨xml, pw, rfl, hne⟩
    · rintro (h | ⟨xml, pw, h, hne⟩)
      · rw [hnone h]
        simp [is_join_fail]
      · rw [hpw xml pw h hne]
        simp [is_join_fail]
  · intro xml h
    refine ⟨fun session hs => hfound xml session h hs, hspawn xml h, ?_⟩
    intro srv2 pt
    cases hs : table_find xml srv2.sessions with
    | none =>
      simp only [tcp_server.create_thread, hs]
      exact ⟨_, (spreadsheet_session.blank n xml).open_file pt, rfl⟩
    | some s0 =>
      simp only [tcp_server.create_thread, hs]
      exact ⟨_, (spreadsheet_session.blank n xml).open_file pt, rfl⟩

/-- Witness for C14: at the server whose catalog holds "budget" with password
"pw", a JOIN with the password "bad" is answered with JOIN FAIL and changes
nothing, and a JOIN with the right password, no session being registered,
starts the thread that will construct the session. -/
theorem join_fail_iff_witness :
    budget_server.join_named 3 "budget" "bad" =
      (budget_server, [ServerEffect.send 3 (ServerMessage.join_fail_password "budget")]) ∧
    budget_server.join_named 3 "budget" "pw" =
      ({ budget_server with threads := budget_server.threads ++ [("budget", "xml1.xml", 3)] },
        []) :=
  ⟨(join_fail_iff budget_server 3 "budget" "bad").2.2.1 "xml1.xml" "pw" (by decide) (by decide),
    ((join_fail_iff budget_server 3 "budget" "pw").2.2.2 "xml1.xml" (by decide)).2.1
      (by decide)⟩

/-- C15: a CREATE for a name that is in the catalog leaves the whole server
state as it is, and its only effect is one CREATE FAIL to the sender, so no
file is written.  A CREATE for a name that is not in the catalog is answered
with CREATE OK, and afterwards the catalog is the previous catalog followed by
one entry for the name, holding the submitted password: the name is found with
that password and every other name is found as before. -/
theorem create_contract (srv : tcp_server) (connection : tcp_connection) (n p : String) :
    (∀ entry, table_find n srv.files = some entry →
      srv.create_named connection n p =
        (srv, [ServerEffect.send connection (ServerMessage.create_fail n)])) ∧
    (table_find n srv.files = none →
      ∃ (xml_name data : String),
        srv.create_named connection n p =
          ({ srv with files := srv.files ++ [(n, (xml_name, p))] },
            [ServerEffect.append_file xml_name data,
             ServerEffect.append_file "spreadsheet_files.txt"
               ("\n" ++ n ++ "\n" ++ p ++ "\n" ++ xml_name ++ "\n"),
             ServerEffect.send connection (ServerMessage.create_ok n p)]) ∧
        xml_name = "xml" ++ toString (srv.files.length + 1) ++ ".xml" ∧
        table_find n (srv.files ++ [(n, (xml_name, p))]) = some (xml_name, p) ∧
        ∀ other, other ≠ n →
          table_find other (srv.files ++ [(n, (xml_name, p))]) = table_find other srv.files) := by
  constructor
  · intro entry h
    simp only [tcp_server.create_named, h]
  · intro h
    refine ⟨"xml" ++ toString (srv.files.length + 1) ++ ".xml",
      "<?xml version=\"1.0\" encoding=\"utf-8\"?>\r\n<spreadsheet>\r\n</spreadsheet>", ?_, rfl,
      table_find_append_self n _ srv.files h,
      fun other hne => table_find_append_ne _ hne srv.files⟩
    simp only [tcp_server.create_named, h, table_insert]

/-- Witness for C15: at the server whose catalog holds "budget", a CREATE of
"budget" fails and a CREATE of "plan" adds the entry for "plan". -/
theorem create_contract_witness :
    budget_server.create_named 4 "budget" "other" =
      (budget_server, [ServerEffect.send 4 (ServerMessage.create_fail "budget")]) ∧
    ∃ (xml_name data : String),
      budget_server.create_named 4 "plan" "secret" =
        ({ budget_server with files := budget_server.files ++ [("plan", (xml_name, "secret"))] },
          [ServerEffect.append_file xml_name data,
           ServerEffect.append_file "spreadsheet_files.txt"
             ("\n" ++ "plan" ++ "\n" ++ "secret" ++ "\n" ++ xml_name ++ "\n"),
           ServerEffect.send 4 (ServerMessage.create_ok "plan" "secret")]) ∧
      xml_name = "xml" ++ toString (budget_server.files.length + 1) ++ ".xml" ∧
      table_find "plan" (budget_server.files ++ [("plan", (xml_name, "secret"))]) =
        some (xml_name, "secret") ∧
      ∀ other, other ≠ "plan" →
        table_find other (budget_server.files ++ [("plan", (xml_name, "secret"))]) =
          table_find other budget_server.files :=
  ⟨(create_contract budget_server 4 "budget" "other").1 ("xml1.xml", "pw") (by decide),
    (create_contract budget_server 4 "plan" "secret").2 (by decide)⟩

/-- C16, the code at the failing input: the JOINs of connections 1 and 2 for
"budget" are both handled before either started thread has run, so both find no
session and both start a thread.  The two threads construct two sessions; the
first is registered with connection 1 as its only subscriber, the `insert` of
the second finds the key taken, and that session lives on unregistered with
connection 2 as its only subscriber.  Both connections get a JOIN OK. -/
theorem concurrent_joins_make_two_sessions :
    (budget_server.run [join_budget 1, join_budget 2]).map
        (fun r => (r.1.sessions.length, r.1.threads)) =
      .ok (0, [("budget", "xml1.xml", 1), ("budget", "xml1.xml", 2)]) ∧
    (budget_server.run joins_race).map
        (fun r => r.1.sessions.map (fun p => (p.1, p.2.connected_users.elems))) =
      .ok [("xml1.xml", [1])] ∧
    (budget_server.run joins_race).map
        (fun r => r.1.unregistered.map (fun s => (s.xml_name, s.connected_users.elems))) =
      .ok [("xml1.xml", [2])] ∧
    (budget_server.run joins_race).map (fun r => r.2) =
      .ok [ServerEffect.session (Effect.write_xml "xml1.xml" []),
           ServerEffect.session (Effect.send 1 (Message.join_ok "budget" 0 [])),
           ServerEffect.session (Effect.write_xml "xml1.xml" []),
           ServerEffect.session (Effect.send 2 (Message.join_ok "budget" 0 []))] :=
  ⟨by decide, by decide, by decide, by decide⟩

/-- C17: `add_user` makes the connection a subscriber and keeps every previous
subscriber, leaves the cell store, the undo log and the version as they are,
and its only effect is one JOIN OK to the connection.  The JOIN OK carries the
session version and the cell set of the session, one entry for each cell of the
cell store with its content, in key order; in its text the Length field is the
decimal length of the serialised cell set, which follows it. -/
theorem add_user_contract (s : spreadsheet_session) (connection : tcp_connection)
    (write_xml : Document → String) :
    (s.add_user connection).2 =
      [Effect.send connection
        (Message.join_ok s.filename s.ss_version
          (s.used_cells.entries.map (fun it => ⟨it.1, it.2⟩)))] ∧
    (∀ name contents : String,
      (⟨name, contents⟩ : cell_node) ∈ s.used_cells.entries.map (fun it => ⟨it.1, it.2⟩) ↔
        s.used_cells.find name = some contents) ∧
    (∀ u, u ∈ (s.add_user connection).1.connected_users.elems ↔
      u = connection ∨ u ∈ s.connected_users.elems) ∧
    (s.add_user connection).1.used_cells = s.used_cells ∧
    (s.add_user connection).1.changes = s.changes ∧
    (s.add_user connection).1.ss_version = s.ss_version ∧
    (Message.join_ok s.filename s.ss_version
        (s.used_cells.entries.map (fun it => ⟨it.1, it.2⟩))).text write_xml =
      "JOIN OK\nName:" ++ s.filename ++ "\nVersion:" ++ toString s.ss_version ++ "\nLength:"
        ++ toString (write_xml (s.used_cells.entries.map (fun it => ⟨it.1, it.2⟩))).length
        ++ "\n" ++ write_xml (s.used_cells.entries.map (fun it => ⟨it.1, it.2⟩)) ++ "\n" ∧
    digits_value
        (toString (write_xml (s.used_cells.entries.map (fun it => ⟨it.1, it.2⟩))).length).data 0 =
      (write_xml (s.used_cells.entries.map (fun it => ⟨it.1, it.2⟩))).length := by
  refine ⟨?_, ?_, ?_, rfl, rfl, rfl, ?_, digits_value_toString _⟩
  · show [Effect.send connection
        (Message.join_ok s.filename s.ss_version s.property_tree)] = _
    unfold spreadsheet_session.property_tree
    cases s.used_cells.entries <;> rfl
  · intro name contents
    rw [List.mem_map]
    show _ ↔ entries_find name s.used_cells.entries = some contents
    rw [← mem_entries_iff_find s.used_cells.ascending]
    constructor
    · rintro ⟨e, he, hEq⟩
      injection hEq with h1 h2
      obtain ⟨k, v⟩ := e
      simp only at h1 h2
      rw [← h1, ← h2]
      exact he
    · intro he
      exact ⟨(name, contents), he, rfl⟩
  · intro u
    exact connection_set.mem_insert s.connected_users connection u
  · simp only [Message.text, String.append_assoc]

/-- Witness for C17: connection 3 joins the session after `three_edits`; its
JOIN OK carries version 3 and the two cells A1 and B2 with their contents. -/
theorem add_user_contract_witness :
    budget_v3.used_cells.entries = [("A1", "6"), ("B2", "42")] ∧
    (budget_v3.add_user 3).2 =
      [Effect.send 3 (Message.join_ok "budget" 3 [⟨"A1", "6"⟩, ⟨"B2", "42"⟩])] :=
  ⟨by decide, (add_user_contract budget_v3 3 (fun _ => "")).1⟩

/-- C18: SAVE is always handled; it writes the file, leaves the undo log empty
and the cell store, the version and the subscriber set as they are, and replies
SAVE OK; an UNDO with the current version right after it is answered with
UNDO END and changes nothing.  A new session starts with an empty undo log. -/
theorem save_contract (s : spreadsheet_session) (connection connection2 : tcp_connection)
    (file_name file_name2 : String) :
    ∃ s1 : spreadsheet_session,
      s.message_received connection (.save file_name) =
        some (s1, [Effect.write_xml s.xml_name s.property_tree,
                   Effect.send connection (Message.save_ok file_name)]) ∧
      s1.changes = [] ∧ s1.used_cells = s.used_cells ∧ s1.ss_version = s.ss_version ∧
      s1.connected_users = s.connected_users ∧
      s1.message_received connection2 (.undo file_name2 s1.ss_version) =
        some (s1, [Effect.send connection2 (Message.undo_end file_name2 s.ss_version)]) ∧
      ∀ (file xml_file : String) (pt : Document) (user : tcp_connection),
        (spreadsheet_session.create file xml_file pt user).1.changes = [] := by
  refine ⟨{ s with changes := [] }, rfl, rfl, rfl, rfl, rfl, ?_, fun _ _ _ _ => rfl⟩
  exact spreadsheet_session.undo_end_result { s with changes := [] } connection2 file_name2 rfl

/-- C19: a message to a session whose first line is none of CHANGE, UNDO, SAVE
and LEAVE leaves the whole session state as it is, and its only effect is one
ERROR to the sender.  A message to the server whose first line is neither
CREATE nor JOIN leaves the whole server state as it is, and its only effect is
one ERROR to the sender. -/
theorem unknown_first_line :
    (∀ (s : spreadsheet_session) (connection : tcp_connection) (buffer : String),
      (getline (istringstream.of buffer) "").2 ≠ "CHANGE" →
      (getline (istringstream.of buffer) "").2 ≠ "UNDO" →
      (getline (istringstream.of buffer) "").2 ≠ "SAVE" →
      (getline (istringstream.of buffer) "").2 ≠ "LEAVE" →
      s.message_received_buffer connection buffer =
        .ok (s, [Effect.send connection Message.error])) ∧
    (∀ (srv : tcp_server) (connection : tcp_connection) (buffer : String),
      (getline (istringstream.of buffer) "").2 ≠ "CREATE" →
      (getline (istringstream.of buffer) "").2 ≠ "JOIN" →
      srv.server_handle_read connection buffer =
        .ok (srv, [ServerEffect.send connection ServerMessage.error])) := by
  constructor
  · intro s connection buffer hc hu hs hl
    have hr : read_command buffer = .ok .unknown := by
      unfold read_command
      rcases hg : getline (istringstream.of buffer) "" with ⟨is1, line1⟩
      rw [hg] at hc hu hs hl
      simp only at hc hu hs hl
      simp only [hc, hu, hs, hl, if_false]
    simp only [spreadsheet_session.message_received_buffer, hr,
      spreadsheet_session.message_received]
  · intro srv connection buffer hc hj
    unfold tcp_server.server_handle_read
    rcases hg : getline (istringstream.of buffer) "" with ⟨is1, line1⟩
    rw [hg] at hc hj
    simp only at hc hj
    simp only [hc, hj, if_false]

/-- Witness for C19: the first line HELLO, in the session `budget_v3` and at
the server `budget_server`. -/
theorem unknown_first_line_witness :
    budget_v3.message_received_buffer 2 "HELLO\nName:budget\n" =
      .ok (budget_v3, [Effect.send 2 Message.error]) ∧
    budget_server.server_handle_read 7 "HELLO\nName:budget\n" =
      .ok (budget_server, [ServerEffect.send 7 ServerMessage.error]) :=
  ⟨unknown_first_line.1 budget_v3 2 "HELLO\nName:budget\n"
      (by decide) (by decide) (by decide) (by decide),
    unknown_first_line.2 budget_server 7 "HELLO\nName:budget\n" (by decide) (by decide)⟩

/-- C20: a receive error on a connection gives the same session state and the
same effects as a LEAVE command from that connection, whatever its name field;
in both the file is written exactly when the counter arrives at zero with
changes on the stack. -/
theorem receive_error_is_leave (s : spreadsheet_session) (connection : tcp_connection)
    (file_name : String) :
    s.message_received connection (.leave file_name) = some (s.receive_error connection) ∧
    (s.receive_error connection).1.connected_users = s.connected_users.erase connection ∧
    (s.receive_error connection).1.user_count = s.user_count - 1 ∧
    (s.receive_error connection).1.used_cells = s.used_cells ∧
    (s.receive_error connection).1.ss_version = s.ss_version ∧
    ((s.receive_error connection).2.any is_write = true ↔
      s.user_count - 1 = 0 ∧ s.changes ≠ []) := by
  have heq : s.message_received connection (.leave file_name) =
      some (s.receive_error connection) := rfl
  obtain ⟨s1, eff, h, hu, hc, hcells, hv, hyes, hno⟩ := leave_result s connection file_name
  rw [heq] at h
  injection h with h
  rw [h]
  refine ⟨by rw [heq, h], hu, hc, hcells, hv, ?_⟩
  by_cases hcond : s.user_count - 1 = 0 ∧ s.changes ≠ []
  · rw [(hyes hcond).2]
    simp [is_write, hcond]
  · rw [(hno hcond).2]
    simp only [List.any_nil, Bool.false_eq_true, false_iff]
    exact hcond

/-- C21, the code at the failing input: in the session that connection 1 just
opened, two CHANGEs of A1 with empty content and one UNDO are all handled, and
in the state they lead to the undo log is not empty, its top entry ("A1", "")
has empty prior content, and A1 is not in the cell store: the lookup before the
erase of the next UNDO misses. -/
theorem undo_lookup_can_miss :
    budget_new.changes = [] ∧
    (trace budget_new.used_cells budget_new cleared_twice).length = 3 ∧
    (final_state budget_new (trace budget_new.used_cells budget_new cleared_twice)).changes =
      [("A1", "")] ∧
    (final_state budget_new
      (trace budget_new.used_cells budget_new cleared_twice)).used_cells.find "A1" = none :=
  ⟨by decide, by decide, by decide, by decide⟩

/-- C22, the code at the failing input: in the session that connection 1 just
opened, a second `add_user` of connection 1 leaves one subscriber and makes the
counter 2; a LEAVE of connection 1 followed by a receive error on the same
connection empties the subscriber set and makes the counter -1.  In the session
that connections 1 and 2 share, a LEAVE of connection 2 followed by a receive
error on connection 2 leaves connection 1 subscribed and makes the counter 0. -/
theorem counter_drifts_from_set :
    budget_new.connected_users.elems = [1] ∧ budget_new.user_count = 1 ∧
    (budget_new.subscriber_events [.add_user 1]).connected_users.elems = [1] ∧
    (budget_new.subscriber_events [.add_user 1]).user_count = 2 ∧
    (budget_new.subscriber_events
      [.leave 1 "budget", .receive_error 1]).connected_users.elems = [] ∧
    (budget_new.subscriber_events [.leave 1 "budget", .receive_error 1]).user_count = -1 ∧
    budget.connected_users.elems = [1, 2] ∧ budget.user_count = 2 ∧
    (budget.subscriber_events [.leave 2 "budget", .receive_error 2]).connected_users.elems =
      [1] ∧
    (budget.subscriber_events [.leave 2 "budget", .receive_error 2]).user_count = 0 :=
  ⟨by decide, by decide, by decide, by decide, by decide, by decide, by decide, by decide,
    by decide, by decide⟩

/-- C23 as stated fails: after an accepted CHANGE of A1 to the empty content the
cell store holds A1 with empty content, and the document `save_ss` writes has a
cell entry for A1 with empty contents. -/
theorem save_writes_empty_cell :
    budget_blanked.used_cells.entries = [("A1", "")] ∧
    budget_blanked.save_ss.2 = [Effect.write_xml "xml1.xml" [⟨"A1", ""⟩]] ∧
    (⟨"A1", ""⟩ : cell_node) ∈ budget_blanked.property_tree :=
  ⟨by decide, by decide, by decide⟩

/-- C23, amended: the document `save_ss` writes holds exactly one cell entry
(name, contents) for each cell of the cell store, whatever its content, and no
other entry; an empty cell store is written with no cell entries.  When no cell
of the store has empty content, no entry has empty contents. -/
theorem save_writes_every_cell (s : spreadsheet_session) :
    s.save_ss.2 = [Effect.write_xml s.xml_name s.property_tree] ∧
    (∀ name contents : String,
      (⟨name, contents⟩ : cell_node) ∈ s.property_tree ↔
        s.used_cells.find name = some contents) ∧
    (s.property_tree.map cell_node.name).Nodup ∧
    s.property_tree.length = s.used_cells.entries.length ∧
    (s.used_cells.entries = [] → s.property_tree = []) ∧
    ((∀ k, s.used_cells.find k ≠ some "") → ∀ node ∈ s.property_tree, node.contents ≠ "") := by
  have hpt := property_tree_eq s
  have hmem : ∀ name contents : String,
      (⟨name, contents⟩ : cell_node) ∈ s.property_tree ↔
        s.used_cells.find name = some contents := by
    intro name contents
    rw [hpt, List.mem_map]
    show _ ↔ entries_find name s.used_cells.entries = some contents
    rw [← mem_entries_iff_find s.used_cells.ascending]
    constructor
    · rintro ⟨e, he, hEq⟩
      injection hEq with h1 h2
      obtain ⟨k, v⟩ := e
      simp only at h1 h2
      rw [← h1, ← h2]
      exact he
    · intro he
      exact ⟨(name, contents), he, rfl⟩
  refine ⟨rfl, hmem, ?_, ?_, ?_, ?_⟩
  · rw [hpt, List.map_map]
    exact entry_names_nodup s.used_cells.ascending
  · rw [hpt, List.length_map]
  · intro he
    rw [hpt, he]
    rfl
  · intro hne node hnode hc
    obtain ⟨name, contents⟩ := node
    simp only at hc
    subst hc
    exact hne name ((hmem name "").mp hnode)

/-- Witness for C23: the session after `three_edits`, whose cells A1 and B2 are
both non-empty, and the session that was just opened on an empty file. -/
theorem save_writes_every_cell_witness :
    budget_v3.save_ss.2 = [Effect.write_xml "xml1.xml" [⟨"A1", "6"⟩, ⟨"B2", "42"⟩]] ∧
    budget_new.property_tree = [] :=
  ⟨by decide, (save_writes_every_cell budget_new).2.2.2.2.1 (by decide)⟩

/-- C24: starting from the empty catalog, after any sequence of CREATE commands
two different names of the catalog have different paths, and the path the next
successful CREATE allocates, "xml" followed by the catalog size plus one and
".xml", is the path of no entry of the catalog; the catalog entry it adds has
that path. -/
theorem created_paths_distinct (cmds : List (tcp_connection × String × String)) :
    (∀ (n1 n2 : String) (e1 e2 : String × String),
      table_find n1 (tcp_server.empty.creates cmds).files = some e1 →
      table_find n2 (tcp_server.empty.creates cmds).files = some e2 →
      n1 ≠ n2 → e1.1 ≠ e2.1) ∧
    (∀ e ∈ (tcp_server.empty.creates cmds).files,
      e.2.1 ≠ "xml" ++ toString ((tcp_server.empty.creates cmds).files.length + 1) ++ ".xml") ∧
    (∀ (connection : tcp_connection) (name password : String),
      table_find name (tcp_server.empty.creates cmds).files = none →
      ((tcp_server.empty.creates cmds).create_named connection name password).1.files =
        (tcp_server.empty.creates cmds).files ++
          [(name, ("xml" ++ toString ((tcp_server.empty.creates cmds).files.length + 1) ++ ".xml",
            password))]) := by
  have hinv : paths_in_order (tcp_server.empty.creates cmds).files :=
    creates_paths cmds tcp_server.empty rfl
  refine ⟨?_, next_path_fresh hinv, ?_⟩
  · intro n1 n2 e1 e2 h1 h2 hne hEq
    have m1 := table_find_mem h1
    have m2 := table_find_mem h2
    have hinj := List.inj_on_of_nodup_map (paths_nodup hinv) m1 m2 hEq
    injection hinj with hn _
    exact hne hn
  · intro connection name password h
    simp only [tcp_server.create_named, h, table_insert]

/-- Witness for C24: after `three_creates` the catalog holds "budget" and
"plan", with the paths "xml1.xml" and "xml2.xml". -/
theorem created_paths_distinct_witness :
    (tcp_server.empty.creates three_creates).files =
      [("budget", ("xml1.xml", "pw")), ("plan", ("xml2.xml", "secret"))] ∧
    ("xml1.xml", "pw").1 ≠ ("xml2.xml", "secret").1 :=
  ⟨by decide,
    (created_paths_distinct three_creates).1 "budget" "plan" ("xml1.xml", "pw")
      ("xml2.xml", "secret") (by decide) (by decide) (by decide)⟩

/-- C25 as stated fails: a CHANGE with the Length field 99 and the content "5"
is accepted, and the UPDATE sent to the other subscriber carries Length 99,
while the decimal length of the content on the following line is 1. -/
theorem update_length_not_content_length :
    budget.message_received_buffer 1 "CHANGE\nName:budget\nVersion:0\nCell:A1\nLength:99\n5\n" =
      .ok ({ budget with
              used_cells := budget.used_cells.insert "A1" "5"
              changes := [("A1", "")]
              ss_version := 1 },
           [Effect.send 2 (Message.update "budget" 1 "A1" "99" "5"),
            Effect.send 1 (Message.change_ok "budget" 1)]) ∧
    toString "5".length = "1" :=
  ⟨by decide, by decide⟩

/-- C25, amended: the UPDATEs an accepted UNDO broadcasts carry as Length the
decimal length of the content they carry; the UPDATEs an accepted CHANGE
broadcasts carry as Length the text of the Length field of the CHANGE command,
next to the content of the command, so their Length is the decimal length of
the content exactly when the Length field of the command was. -/
theorem update_length_field (s : spreadsheet_session) (connection : tcp_connection) :
    (∀ file_name cellname length content : String,
      ∃ (s1 : spreadsheet_session) (eff : List Effect),
        s.message_received connection (.change file_name s.ss_version cellname length content) =
          some (s1, eff) ∧
        eff.filter is_update =
          (s.connected_users.elems.filter (fun u => u ≠ connection)).map
            (fun u => Effect.send u
              (Message.update s.filename (s.ss_version + 1) cellname length content)) ∧
        (length = toString content.length →
          ∀ u name version cell len data,
            Effect.send u (Message.update name version cell len data) ∈ eff →
            len = toString data.length)) ∧
    (∀ (file_name cellname contents : String) (rest : List (String × String)),
      s.changes = (cellname, contents) :: rest →
      (contents = "" → s.used_cells.find cellname ≠ none) →
      ∃ (s1 : spreadsheet_session) (eff : List Effect),
        s.message_received connection (.undo file_name s.ss_version) = some (s1, eff) ∧
        eff.filter is_update =
          (s.connected_users.elems.filter (fun u => u ≠ connection)).map
            (fun u => Effect.send u
              (Message.update s.filename (s.ss_version + 1) cellname
                (toString contents.length) contents)) ∧
        ∀ u name version cell len data,
          Effect.send u (Message.update name version cell len data) ∈ eff →
          len = toString data.length) := by
  constructor
  · intro file_name cellname length content
    obtain ⟨s1, h1, -, -, -, hv, hu, hf, -⟩ :=
      spreadsheet_session.change_step s connection file_name cellname length content
    have hfilter : (s1.send_update connection cellname length content
          ++ [Effect.send connection (Message.change_ok file_name (s.ss_version + 1))]).filter
          is_update = s1.send_update connection cellname length content := by
      rw [List.filter_append, send_update_all_updates]
      simp [is_update]
    refine ⟨s1, _, h1, ?_, ?_⟩
    · rw [hfilter]
      unfold spreadsheet_session.send_update
      rw [hu, hf, hv]
    · intro hlen u name version cell len data hm
      rcases List.mem_append.mp hm with hm | hm
      · obtain ⟨w, -, -, hw⟩ := (spreadsheet_session.send_update_mem _ _ _ _ _ _).mp hm
        injection hw with _ hw
        injection hw with _ _ _ h4 h5
        rw [h4, h5]
        exact hlen
      · simp at hm
  · intro file_name cellname contents rest hlog hfind
    have h1 := spreadsheet_session.undo_accepted_result s connection file_name cellname
      contents rest hlog hfind
    refine ⟨_, _, h1, ?_, ?_⟩
    · rw [List.filter_append, send_update_all_updates]
      have hnil : List.filter is_update
          [Effect.send connection
            (Message.undo_ok file_name (s.ss_version + 1) cellname
              (toString contents.length) contents)] = [] := rfl
      rw [hnil, List.append_nil]
      rfl
    · intro u name version cell len data hm
      rcases List.mem_append.mp hm with hm | hm
      · obtain ⟨w, -, -, hw⟩ := (spreadsheet_session.send_update_mem _ _ _ _ _ _).mp hm
        injection hw with _ hw
        injection hw with _ _ _ h4 h5
        rw [h4, h5]
      · simp at hm

/-- Witness for C25: connection 1 undoes the last of `three_edits`; the UPDATE
that connection 2 gets carries the content "5" and the Length 1. -/
theorem update_length_field_witness :
    ∃ (s1 : spreadsheet_session) (eff : List Effect),
      budget_v3.message_received 1 (.undo "budget" budget_v3.ss_version) = some (s1, eff) ∧
      eff.filter is_update =
        (budget_v3.connected_users.elems.filter (fun u => u ≠ 1)).map
          (fun u => Effect.send u
            (Message.update budget_v3.filename (budget_v3.ss_version + 1) "A1"
              (toString "5".length) "5")) ∧
      ∀ u name version cell len data,
        Effect.send u (Message.update name version cell len data) ∈ eff →
        len = toString data.length :=
  (update_length_field budget_v3 1).2 "budget" "A1" "5" [("B2", ""), ("A1", "")]
    (by decide) (by decide)

end Spreadsheet
